import Mathlib

/-!
Verification of the TransferMap repository against its specification.

The embedding below follows src/server/index.js: the string helpers of
normalizeGT (lines 85-89), the SQLite schema (lines 18-55) together with
the semantics SQLite gives it under PRAGMA foreign_keys = ON (line 15),
and the GET /api/equivalents handler (lines 96-135).  The scraper
pipeline (rate limiter, normalizer, persister) is not part of src/; the
definitions for it are modelled from the spec and say so in their doc
comments.
-/

namespace TransferMap

/-- Whitespace test, embedding the JavaScript whitespace class for the
characters in play. -/
def isWS (c : Char) : Bool := c.isWhitespace

/-- Embeds JavaScript String.prototype.trim on a list of characters:
drop leading and trailing whitespace. -/
def trimChars (l : List Char) : List Char :=
  ((l.dropWhile isWS).reverse.dropWhile isWS).reverse

/-- Embeds input.trim() from normalizeGT (src/server/index.js line 86). -/
def trimStr (s : String) : String := String.mk (trimChars s.data)

/-- Embeds .toUpperCase() from normalizeGT line 86 (ASCII inputs). -/
def upperStr (s : String) : String := String.mk (s.data.map Char.toUpper)

/-- Embeds the first .replace on line 88: delete every whitespace character. -/
def stripWS (s : String) : String :=
  String.mk (s.data.filter (fun c => !(isWS c)))

/-- Character class of the regex on line 88 of src/server/index.js. -/
def isAZ (c : Char) : Bool := decide (65 ≤ c.toNat) && decide (c.toNat ≤ 90)

/-- Whether the anchored regex LETTERS-then-DIGITS of line 88 matches a
prefix of l: a nonempty run of letters A-Z followed immediately by a digit.
The letter run is greedy and backtracking cannot help, because a shortened
letter run is followed by a letter, never by a digit. -/
def matchLD (l : List Char) : Bool :=
  !(l.takeWhile isAZ).isEmpty &&
    (match (l.dropWhile isAZ).head? with
     | some c => c.isDigit
     | none => false)

/-- Embeds the second .replace on line 88: when the anchored regex matches,
one space is inserted after the leading letter run; otherwise the input is
returned unchanged. -/
def insertLD (l : List Char) : List Char :=
  if matchLD l then l.takeWhile isAZ ++ ' ' :: l.dropWhile isAZ else l

/-- Embeds normalizeGT (src/server/index.js lines 85-89). -/
def normalizeGT (input : String) : String :=
  let raw := upperStr (trimStr input)
  if raw = "" then ""
  else String.mk (insertLD (stripWS raw).data)

/-- Row of the School table (src/server/index.js lines 19-22). -/
structure SchoolRow where
  id : Nat
  name : String
deriving Repr, DecidableEq

/-- Row of the GTCourse table (lines 24-29).  REAL credit hours are
modelled as rationals. -/
structure GTCourseRow where
  id : Nat
  code : String
  title : String
  creditHours : Rat
deriving Repr, DecidableEq

/-- Row of the ExternalCourse table (lines 31-39). -/
structure ExternalCourseRow where
  id : Nat
  schoolId : Nat
  code : String
  title : String
  creditHours : Rat
deriving Repr, DecidableEq

/-- Row of the Equivalency table (lines 41-50).  externalCourseCode is a
plain string, not a foreign key into ExternalCourse. -/
structure EquivalencyRow where
  id : Nat
  gtCourseId : Nat
  schoolId : Nat
  externalCourseCode : String
  semester : String
deriving Repr, DecidableEq

/-- The relational store, one list per table plus one AUTOINCREMENT
counter per table, as SQLite keeps them. -/
structure DB where
  schools : List SchoolRow
  gtCourses : List GTCourseRow
  externalCourses : List ExternalCourseRow
  equivalencies : List EquivalencyRow
  nextSchoolId : Nat
  nextGTCourseId : Nat
  nextExternalCourseId : Nat
  nextEquivalencyId : Nat
deriving Repr, DecidableEq

/-- The store right after CREATE TABLE, before any insert. -/
def emptyDB : DB := ⟨[], [], [], [], 1, 1, 1, 1⟩

/-- INSERT INTO School under the UNIQUE(name) constraint: none models a
constraint violation, otherwise the new row id is returned (SQLite
lastInsertRowid). -/
def insertSchool (db : DB) (name : String) : Option (DB × Nat) :=
  if db.schools.any (fun s => s.name == name) then none
  else some ({ db with
                 schools := db.schools ++ [⟨db.nextSchoolId, name⟩],
                 nextSchoolId := db.nextSchoolId + 1 }, db.nextSchoolId)

/-- INSERT INTO GTCourse under the UNIQUE(code) constraint. -/
def insertGTCourse (db : DB) (code title : String) (creditHours : Rat) :
    Option (DB × Nat) :=
  if db.gtCourses.any (fun g => g.code == code) then none
  else some ({ db with
               gtCourses := db.gtCourses ++
                 [⟨db.nextGTCourseId, code, title, creditHours⟩],
               nextGTCourseId := db.nextGTCourseId + 1 }, db.nextGTCourseId)

/-- INSERT INTO ExternalCourse under PRAGMA foreign_keys = ON (the
schoolId must exist) and UNIQUE(schoolId, code). -/
def insertExternalCourse (db : DB) (schoolId : Nat) (code title : String)
    (creditHours : Rat) : Option (DB × Nat) :=
  if !(db.schools.any (fun s => s.id == schoolId)) then none
  else if db.externalCourses.any
      (fun c => c.schoolId == schoolId && c.code == code) then none
  else some ({ db with
               externalCourses := db.externalCourses ++
                 [⟨db.nextExternalCourseId, schoolId, code, title, creditHours⟩],
               nextExternalCourseId := db.nextExternalCourseId + 1 },
             db.nextExternalCourseId)

/-- INSERT INTO Equivalency under PRAGMA foreign_keys = ON (gtCourseId and
schoolId must exist) and UNIQUE(gtCourseId, schoolId, externalCourseCode). -/
def insertEquivalency (db : DB) (gtCourseId schoolId : Nat)
    (externalCourseCode semester : String) : Option (DB × Nat) :=
  if !(db.gtCourses.any (fun g => g.id == gtCourseId)) then none
  else if !(db.schools.any (fun s => s.id == schoolId)) then none
  else if db.equivalencies.any (fun e =>
      e.gtCourseId == gtCourseId && e.schoolId == schoolId &&
        e.externalCourseCode == externalCourseCode) then none
  else some ({ db with
               equivalencies := db.equivalencies ++
                 [⟨db.nextEquivalencyId, gtCourseId, schoolId,
                   externalCourseCode, semester⟩],
               nextEquivalencyId := db.nextEquivalencyId + 1 },
             db.nextEquivalencyId)

/-- DELETE FROM School: the two FOREIGN KEY ... ON DELETE CASCADE clauses
remove the dependent ExternalCourse and Equivalency rows. -/
def deleteSchool (db : DB) (sid : Nat) : DB :=
  { db with
    schools := db.schools.filter (fun s => !(s.id == sid)),
    externalCourses := db.externalCourses.filter (fun c => !(c.schoolId == sid)),
    equivalencies := db.equivalencies.filter (fun e => !(e.schoolId == sid)) }

/-- DELETE FROM GTCourse: ON DELETE CASCADE removes dependent Equivalency
rows. -/
def deleteGTCourse (db : DB) (gid : Nat) : DB :=
  { db with
    gtCourses := db.gtCourses.filter (fun g => !(g.id == gid)),
    equivalencies := db.equivalencies.filter (fun e => !(e.gtCourseId == gid)) }

/-- Modelled from the spec: persister step 1 of section 4.5 (the scraper
that implements the persister is not under src/): insert the School if its
name does not exist, and return its id. -/
def getOrInsertSchool (db : DB) (name : String) : DB × Nat :=
  match db.schools.find? (fun s => s.name == name) with
  | some s => (db, s.id)
  | none => ({ db with
                 schools := db.schools ++ [⟨db.nextSchoolId, name⟩],
                 nextSchoolId := db.nextSchoolId + 1 }, db.nextSchoolId)

/-- Modelled from the spec: persister step 2 of section 4.5: insert the
GTCourse if its code does not exist, else update title and credit hours in
place; return its id. -/
def upsertGTCourse (db : DB) (code title : String) (credit : Rat) : DB × Nat :=
  match db.gtCourses.find? (fun g => g.code == code) with
  | some g =>
    ({ db with gtCourses := db.gtCourses.map (fun x =>
        if x.id == g.id then { x with title := title, creditHours := credit }
        else x) }, g.id)
  | none => ({ db with
                 gtCourses := db.gtCourses ++
                   [⟨db.nextGTCourseId, code, title, credit⟩],
                 nextGTCourseId := db.nextGTCourseId + 1 }, db.nextGTCourseId)

/-- Modelled from the spec: persister step 3 of section 4.5: like step 2
for ExternalCourse, scoped by school. -/
def upsertExternalCourse (db : DB) (schoolId : Nat) (code title : String)
    (credit : Rat) : DB × Nat :=
  match db.externalCourses.find? (fun c => c.schoolId == schoolId && c.code == code) with
  | some c =>
    ({ db with externalCourses := db.externalCourses.map (fun x =>
        if x.id == c.id then { x with title := title, creditHours := credit }
        else x) }, c.id)
  | none => ({ db with
                 externalCourses := db.externalCourses ++
                   [⟨db.nextExternalCourseId, schoolId, code, title, credit⟩],
                 nextExternalCourseId := db.nextExternalCourseId + 1 },
             db.nextExternalCourseId)

/-- Modelled from the spec: persister step 4 of section 4.5: insert the
Equivalency if the (gtCourseId, schoolId, externalCourseCode) triple is
absent, else overwrite the semester of the existing row. -/
def upsertEquivalency (db : DB) (gtCourseId schoolId : Nat)
    (code semester : String) : DB :=
  match db.equivalencies.find? (fun e =>
      e.gtCourseId == gtCourseId && e.schoolId == schoolId &&
        e.externalCourseCode == code) with
  | some e =>
    { db with equivalencies := db.equivalencies.map (fun x =>
        if x.id == e.id then { x with semester := semester } else x) }
  | none =>
    { db with
      equivalencies := db.equivalencies ++
        [⟨db.nextEquivalencyId, gtCourseId, schoolId, code, semester⟩],
      nextEquivalencyId := db.nextEquivalencyId + 1 }

/-- A fully normalized record, ready for the persister (spec section 4.4
output). -/
structure NormalizedRecord where
  schoolName : String
  gtCode : String
  gtTitle : String
  gtCredit : Rat
  extCode : String
  extTitle : String
  extCredit : Rat
  semester : String
deriving Repr, DecidableEq

/-- Modelled from the spec: the persister of section 4.5 run on one
normalized record: the four upsert steps in order, inside one transaction. -/
def persistRecord (db : DB) (r : NormalizedRecord) : DB :=
  let p1 := getOrInsertSchool db r.schoolName
  let p2 := upsertGTCourse p1.1 r.gtCode r.gtTitle r.gtCredit
  let p3 := upsertExternalCourse p2.1 p1.2 r.extCode r.extTitle r.extCredit
  upsertEquivalency p3.1 p2.2 p1.2 r.extCode r.semester

/-- Record-level rejection taxonomy of spec section 7 relevant to the
normalizer. -/
inductive RejectReason where
  | MALFORMED_CODE
  | INVALID_CREDIT_HOURS
deriving Repr, DecidableEq

/-- A raw credit-hour value as the extractor found it: a number or a bare
string such as N/A. -/
inductive RawValue where
  | num (q : Rat)
  | str (s : String)
deriving Repr, DecidableEq

/-- A raw equivalency record as produced by the extractor (spec section
4.3 and the end-to-end scenario of section 8). -/
structure RawRecord where
  school : String
  gt : String
  gtTitle : String
  gtCredit : RawValue
  ext : String
  extTitle : String
  extCredit : RawValue
  semester : String
deriving Repr, DecidableEq

/-- Modelled from the spec: course-code normalization of section 4.4 (the
scraper implementing the normalizer is not under src/): strip all
whitespace, uppercase, require the shape LETTERS followed by DIGITS (else
reject with MALFORMED_CODE), then reinsert a single space between the
letters and the digits. -/
def normalizeCode (s : String) : Except RejectReason String :=
  let l := (upperStr (stripWS s)).data
  let ls := l.takeWhile isAZ
  let ds := l.dropWhile isAZ
  if ls.isEmpty || ds.isEmpty || !(ds.all Char.isDigit) then
    Except.error RejectReason.MALFORMED_CODE
  else Except.ok (String.mk (ls ++ ' ' :: ds))

/-- Numeric value of a run of decimal digits. -/
def digitsVal (l : List Char) : Nat :=
  l.foldl (fun a c => a * 10 + (c.toNat - 48)) 0

/-- Modelled from the spec: parse a raw credit-hour string as a real
number: a digit run with an optional dot and fractional digit run;
anything else (for example N/A) is unparsable. -/
def parseDecimal (s : String) : Option Rat :=
  let ip := s.data.takeWhile Char.isDigit
  let rest := s.data.dropWhile Char.isDigit
  if ip.isEmpty then none
  else
    match rest with
    | [] => some ((digitsVal ip : Nat) : Rat)
    | '.' :: frac =>
      if frac.isEmpty || !(frac.all Char.isDigit) then none
      else some (((digitsVal ip : Nat) : Rat) +
        ((digitsVal frac : Nat) : Rat) / ((10 : Rat) ^ frac.length))
    | _ => none

/-- Modelled from the spec: credit hours are parsed as a real number;
values that are not strictly positive, or unparsable, are rejected with
INVALID_CREDIT_HOURS (section 4.4), never coerced. -/
def parseCreditHours : RawValue → Except RejectReason Rat
  | RawValue.num q =>
    if 0 < q then Except.ok q
    else Except.error RejectReason.INVALID_CREDIT_HOURS
  | RawValue.str s =>
    match parseDecimal s with
    | some q =>
      if 0 < q then Except.ok q
      else Except.error RejectReason.INVALID_CREDIT_HOURS
    | none => Except.error RejectReason.INVALID_CREDIT_HOURS

/-- Collapse runs of whitespace to one space; the flag records whether the
previous character was part of a whitespace run. -/
def collapseWSAux : Bool → List Char → List Char
  | _, [] => []
  | prevWS, c :: rest =>
    if isWS c then
      if prevWS then collapseWSAux true rest
      else ' ' :: collapseWSAux true rest
    else c :: collapseWSAux false rest

/-- Modelled from the spec: school names are trimmed, with internal
whitespace collapsed (section 4.4). -/
def normalizeSchoolName (s : String) : String :=
  String.mk (collapseWSAux false (trimChars s.data))

/-- Modelled from the spec: the normalizer contract of section 4.4 on one
raw record; course codes are checked first, then credit hours; school name
and semester cannot fail. -/
def normalizeRecord (r : RawRecord) : Except RejectReason NormalizedRecord :=
  match normalizeCode r.gt with
  | Except.error e => Except.error e
  | Except.ok gtCode =>
    match normalizeCode r.ext with
    | Except.error e => Except.error e
    | Except.ok extCode =>
      match parseCreditHours r.gtCredit with
      | Except.error e => Except.error e
      | Except.ok gtCredit =>
        match parseCreditHours r.extCredit with
        | Except.error e => Except.error e
        | Except.ok extCredit =>
          Except.ok ⟨normalizeSchoolName r.school, gtCode, r.gtTitle, gtCredit,
                     extCode, r.extTitle, extCredit, r.semester⟩

/-- Modelled from the spec: one pipeline unit of work, normalize then
persist; a rejected record leaves the store unchanged and reports its
reason. -/
def processRecord (db : DB) (r : RawRecord) : DB × Option RejectReason :=
  match normalizeRecord r with
  | Except.error reason => (db, some reason)
  | Except.ok n => (persistRecord db n, none)

/-- Strict lexicographic order on character lists: the BINARY collation
SQLite applies in ORDER BY (memcmp on UTF-8 bytes, which for these values
equals code-point order). -/
def charListLt : List Char → List Char → Bool
  | [], [] => false
  | [], _ :: _ => true
  | _ :: _, [] => false
  | a :: as, b :: bs =>
    if a < b then true else if b < a then false else charListLt as bs

/-- Strict string comparison used by ORDER BY s.name. -/
def strLt (a b : String) : Bool := charListLt a.data b.data

/-- Strict order on the nullable ec.code column: SQLite sorts NULLs first
in ascending ORDER BY. -/
def optCodeLt : Option String → Option String → Bool
  | none, none => false
  | none, some _ => true
  | some _, none => false
  | some a, some b => strLt a b

/-- One row of the SELECT of the query endpoint (src lines 113-121); the
three ExternalCourse columns are NULL exactly when the LEFT JOIN finds no
row. -/
structure QueryItem where
  schoolName : String
  gtCourseCode : String
  gtCourseName : String
  gtCreditHours : Rat
  externalCourseCode : Option String
  externalCourseName : Option String
  externalCreditHours : Option Rat
  semester : String
deriving Repr, DecidableEq

/-- Strict ORDER BY comparison (src line 129): school name first, external
course code second. -/
def itemLt (a b : QueryItem) : Bool :=
  strLt a.schoolName b.schoolName ||
    (!(strLt b.schoolName a.schoolName) &&
      optCodeLt a.externalCourseCode b.externalCourseCode)

/-- Non-strict ORDER BY order; rows tied on both keys are unordered. -/
def itemLE (a b : QueryItem) : Prop := itemLt b a = false

instance : DecidableRel itemLE :=
  fun a b => inferInstanceAs (Decidable (itemLt b a = false))

/-- The SELECT FROM Equivalency JOIN School JOIN GTCourse LEFT JOIN
ExternalCourse of the handler (src lines 110-132) for one Equivalency row;
none when an inner-join partner is missing, which referential integrity
rules out. -/
def joinItem (db : DB) (e : EquivalencyRow) : Option QueryItem :=
  match db.schools.find? (fun s => s.id == e.schoolId),
        db.gtCourses.find? (fun g => g.id == e.gtCourseId) with
  | some s, some g =>
    let ec := db.externalCourses.find? (fun c =>
      c.schoolId == e.schoolId && c.code == e.externalCourseCode)
    some ⟨s.name, g.code, g.title, g.creditHours,
          ec.map (fun c => c.code), ec.map (fun c => c.title),
          ec.map (fun c => c.creditHours), e.semester⟩
  | _, _ => none

/-- Embeds REPLACE(x, one space, empty) from the WHERE clause (src line
104): remove space characters only. -/
def stripSpaces (s : String) : String :=
  String.mk (s.data.filter (fun c => !(c == ' ')))

/-- Embeds the GTCourse lookup of the handler (src lines 103-105), which
compares codes ignoring spaces; .get returns the first matching row. -/
def findGT (db : DB) (c : String) : Option GTCourseRow :=
  db.gtCourses.find? (fun g => stripSpaces g.code == stripSpaces c)

/-- Join rows for one GTCourse id, in table order, before ORDER BY. -/
def equivItems (db : DB) (gtId : Nat) : List QueryItem :=
  (db.equivalencies.filter (fun e => e.gtCourseId == gtId)).filterMap
    (fun e => joinItem db e)

/-- HTTP outcome of the endpoint: status 400 with an error body, or a JSON
body with items and total. -/
inductive ApiResponse where
  | badRequest (error : String)
  | ok (items : List QueryItem) (total : Nat)
deriving Repr, DecidableEq

/-- Embeds the GET /api/equivalents handler (src lines 96-135); the gt
query parameter is none when absent, in which case the JavaScript
String(input or empty) coercion yields the empty string. -/
def handleEquivalents (db : DB) (gtQ : Option String) : ApiResponse :=
  let gtParam := normalizeGT (gtQ.getD "")
  if gtParam = "" then
    ApiResponse.badRequest "gt is required. Example: /api/equivalents?gt=CS1331"
  else
    match findGT db gtParam with
    | none => ApiResponse.ok [] 0
    | some gt =>
      let rows := List.insertionSort itemLE (equivItems db gt.id)
      ApiResponse.ok rows rows.length

/-- The store produced by the seed block (src lines 57-82) on first run. -/
def seedDB : DB :=
  ⟨[⟨1, "Georgia State University"⟩, ⟨2, "Kennesaw State University"⟩],
   [⟨1, "CS 1331", "Introduction to Object Oriented Programming", 3⟩,
    ⟨2, "CS 1332", "Data Structures and Algorithms", 3⟩],
   [⟨1, 1, "CSC 2510", "Object Oriented Programming", 3⟩,
    ⟨2, 2, "CS 2302", "Object Oriented Programming", 3⟩,
    ⟨3, 1, "CSC 2720", "Data Structures", 3⟩],
   [⟨1, 1, 1, "CSC 2510", "Fall 2025"⟩,
    ⟨2, 1, 2, "CS 2302", "Fall 2025"⟩,
    ⟨3, 2, 1, "CSC 2720", "Fall 2025"⟩],
   3, 3, 4, 4⟩

/-- The end-to-end raw record of spec section 8. -/
def rawCS1331 : RawRecord :=
  ⟨"Georgia State University", "CS1331", "Intro to OOP", RawValue.num 3,
   "CSC2510", "OOP", RawValue.num 3, "Fall 2025"⟩

/-- The identity triple of an Equivalency row (spec section 3). -/
def eqTriple (e : EquivalencyRow) : Nat × Nat × String :=
  (e.gtCourseId, e.schoolId, e.externalCourseCode)

/-- No two Equivalency rows share the identity triple: the UNIQUE
constraint of src line 49. -/
def EquivUnique (db : DB) : Prop :=
  db.equivalencies.Pairwise (fun a b => eqTriple a ≠ eqTriple b)

/-- Every Equivalency row references an existing School and GTCourse, and
every ExternalCourse row an existing School. -/
def RefIntegrity (db : DB) : Prop :=
  (∀ e ∈ db.equivalencies,
    (∃ s ∈ db.schools, s.id = e.schoolId) ∧
      ∃ g ∈ db.gtCourses, g.id = e.gtCourseId) ∧
  ∀ c ∈ db.externalCourses, ∃ s ∈ db.schools, s.id = c.schoolId

instance (db : DB) : Decidable (RefIntegrity db) := by
  unfold RefIntegrity
  infer_instance

/-- Store states reachable from the empty store through the operations the
schema offers (constrained inserts, cascading deletes) and the
spec-modelled persister upsert. -/
inductive Reachable : DB → Prop where
  | empty : Reachable emptyDB
  | insSchool (db db2 : DB) (name : String) (i : Nat) :
      Reachable db → insertSchool db name = some (db2, i) → Reachable db2
  | insGTCourse (db db2 : DB) (code title : String) (credit : Rat) (i : Nat) :
      Reachable db → insertGTCourse db code title credit = some (db2, i) →
      Reachable db2
  | insExternalCourse (db db2 : DB) (sid : Nat) (code title : String)
      (credit : Rat) (i : Nat) :
      Reachable db → insertExternalCourse db sid code title credit = some (db2, i) →
      Reachable db2
  | insEquivalency (db db2 : DB) (gid sid : Nat) (code sem : String) (i : Nat) :
      Reachable db → insertEquivalency db gid sid code sem = some (db2, i) →
      Reachable db2
  | delSchool (db : DB) (sid : Nat) : Reachable db → Reachable (deleteSchool db sid)
  | delGTCourse (db : DB) (gid : Nat) : Reachable db → Reachable (deleteGTCourse db gid)
  | persist (db : DB) (n : NormalizedRecord) : Reachable db →
      Reachable (persistRecord db n)

/-- A store holding an Equivalency whose external code matches no
ExternalCourse row: school 1 and GT course 1 exist, the Equivalency cites
code CSC 2510, and the ExternalCourse table is empty. -/
def danglingDB : DB :=
  ⟨[⟨1, "Georgia State University"⟩],
   [⟨1, "CS 1331", "Intro to OOP", 3⟩],
   [],
   [⟨1, 1, 1, "CSC 2510", "Fall 2025"⟩],
   2, 2, 1, 2⟩

/-- Stores reachable through the pipeline alone: the empty store, then one
processRecord step per raw record (spec sections 4.4-4.5). -/
inductive PipeReachable : DB → Prop where
  | empty : PipeReachable emptyDB
  | step (db : DB) (r : RawRecord) : PipeReachable db →
      PipeReachable (processRecord db r).1

/-- All persisted credit hours are strictly positive. -/
def CreditPositive (db : DB) : Prop :=
  (∀ g ∈ db.gtCourses, 0 < g.creditHours) ∧
    ∀ c ∈ db.externalCourses, 0 < c.creditHours

/-- Modelled from the spec: the rate limiter of section 4.1 (the scraper
implementing it is not under src/).  State is the list of past grant
instants; a request at instant t is granted at t when fewer than R grants
are still inside the rolling window of length W ending at t, and otherwise
at the instant the oldest in-window grant leaves the window
(sleep-until-next-slot token bucket; the fallback arm is unreachable for
positive R). -/
def nextGrantAux (R W t : Nat) : List Nat → Nat
  | [] => t
  | g0 :: rest => if rest.length + 1 < R then t else g0 + W

/-- Modelled from the spec: acquire computes the grant instant from the
grants still inside the window ending at the request instant t. -/
def nextGrant (R W : Nat) (grants : List Nat) (t : Nat) : Nat :=
  nextGrantAux R W t (grants.filter (fun g => t < g + W))

/-- Modelled from the spec: drive the limiter over a list of request
instants; now is the instant the single-threaded caller becomes ready,
never before its previous grant, and every request passes through
acquire — there is no bypass path. -/
def limiterRun (R W : Nat) : List Nat → Nat → List Nat → List Nat
  | grants, _, [] => grants
  | grants, now, t :: ts =>
    limiterRun R W (grants ++ [nextGrant R W grants (max t now)])
      (nextGrant R W grants (max t now)) ts

/-- Grant instants of a whole crawl run started with no history. -/
def limiterTrace (R W : Nat) (reqs : List Nat) : List Nat :=
  limiterRun R W [] 0 reqs

/-- Number of grants inside the rolling half-open window starting at a. -/
def countWin (W : Nat) (gs : List Nat) (a : Nat) : Nat :=
  (gs.filter (fun g => a ≤ g && g < a + W)).length

/-- C1: course-code normalization is deterministic and canonical: the inputs
CS1331, cs 1331 and CS  1331 all normalize to the canonical form CS 1331. -/
theorem C1_normalizeGT_canonical :
    normalizeGT "CS1331" = "CS 1331" ∧ normalizeGT "cs 1331" = "CS 1331" ∧
      normalizeGT "CS  1331" = "CS 1331" := by decide

/-- C2 counterexample: the inputs 123ABC and CS, whose stripped uppercased
forms do not match LETTERS followed by DIGITS, are not rejected by
normalizeGT with a MALFORMED_CODE reason; they are passed through
unchanged, refuting the claim that such inputs are rejected rather than
passed through (there is no rejection path in normalizeGT at all). -/
theorem C2_normalizeGT_passthrough_counterexample :
    normalizeGT "123ABC" = "123ABC" ∧ normalizeGT "CS" = "CS" := by decide

/-- C2 amended: for every input whose whitespace-stripped uppercased form
does not match the shape LETTERS followed by DIGITS, normalizeGT does not
reject the input; it returns the whitespace-stripped uppercased form
unchanged (no MALFORMED_CODE taxonomy exists in the server). -/
theorem C2_normalizeGT_no_rejection (s : String)
    (h : matchLD (stripWS (upperStr (trimStr s))).data = false) :
    normalizeGT s = stripWS (upperStr (trimStr s)) := by
  unfold normalizeGT
  by_cases hraw : upperStr (trimStr s) = ""
  · simp only [hraw, if_pos rfl]
    rfl
  · simp only [if_neg hraw, insertLD, h, Bool.false_eq_true, if_neg]
    rfl

/-- C2 amended, witness: the concrete malformed input 123ABC is returned
as its stripped uppercased form, namely unchanged. -/
theorem C2_normalizeGT_no_rejection_witness :
    normalizeGT "123ABC" = stripWS (upperStr (trimStr "123ABC")) :=
  C2_normalizeGT_no_rejection "123ABC" (by decide)

/-- C7: processing the single raw record of the end-to-end scenario on an
empty store leaves exactly one School, one GTCourse with code CS 1331, one
ExternalCourse with code CSC 2510 and one Equivalency, and a subsequent
query for CS 1331 returns exactly that one item. -/
theorem C7_end_to_end_scenario :
    (processRecord emptyDB rawCS1331).1.schools.map (fun s => s.name) =
        ["Georgia State University"] ∧
      (processRecord emptyDB rawCS1331).1.gtCourses.map (fun g => g.code) =
        ["CS 1331"] ∧
      (processRecord emptyDB rawCS1331).1.externalCourses.map (fun c => c.code) =
        ["CSC 2510"] ∧
      (processRecord emptyDB rawCS1331).1.equivalencies.length = 1 ∧
      handleEquivalents (processRecord emptyDB rawCS1331).1 (some "CS 1331") =
        ApiResponse.ok
          [⟨"Georgia State University", "CS 1331", "Intro to OOP", 3,
            some "CSC 2510", some "OOP", some 3, "Fall 2025"⟩] 1 := by
  decide

/-- Characters with different code points are different. -/
theorem char_ne_of_toNat_ne {a b : Char} (h : a.toNat ≠ b.toNat) : a ≠ b :=
  fun he => h (congrArg Char.toNat he)

/-- Code point of Char.ofNat on inputs below the surrogate range. -/
theorem toNat_ofNat_lt {n : Nat} (h : n < 55296) : (Char.ofNat n).toNat = n := by
  unfold Char.ofNat
  rw [dif_pos (Or.inl h)]
  simp [Char.ofNatAux, Char.toNat, UInt32.toNat]

/-- A character whose code point avoids the four whitespace code points is
not whitespace. -/
theorem isWS_eq_false_of_toNat {c : Char} (h32 : c.toNat ≠ 32)
    (h9 : c.toNat ≠ 9) (h13 : c.toNat ≠ 13) (h10 : c.toNat ≠ 10) :
    isWS c = false := by
  unfold isWS Char.isWhitespace
  simp only [Bool.or_eq_false_iff, decide_eq_false_iff_not]
  refine ⟨⟨⟨?_, ?_⟩, ?_⟩, ?_⟩
  · intro he
    subst he
    exact h32 (by decide)
  · intro he
    subst he
    exact h9 (by decide)
  · intro he
    subst he
    exact h13 (by decide)
  · intro he
    subst he
    exact h10 (by decide)

/-- Uppercasing preserves the property of not being whitespace. -/
theorem isWS_toUpper_eq_false {c : Char} (h : isWS c = false) :
    isWS (Char.toUpper c) = false := by
  have hu : Char.toUpper c =
      if c.toNat ≥ 97 ∧ c.toNat ≤ 122 then Char.ofNat (c.toNat - 32) else c := rfl
  rw [hu]
  split_ifs with hc
  · have hv : (Char.ofNat (Char.toNat c - 32)).toNat = Char.toNat c - 32 :=
      toNat_ofNat_lt (by omega)
    refine isWS_eq_false_of_toNat ?_ ?_ ?_ ?_ <;> rw [hv] <;> omega
  · exact h

/-- The head of dropWhile fails the predicate. -/
theorem head_dropWhile_eq_false {α : Type} (p : α → Bool) (l : List α) {c : α}
    (h : (l.dropWhile p).head? = some c) : p c = false := by
  induction l with
  | nil => simp [List.dropWhile] at h
  | cons a as ih =>
    rw [List.dropWhile_cons] at h
    by_cases hp : p a = true
    · rw [if_pos hp] at h
      exact ih h
    · rw [if_neg hp] at h
      simp only [List.head?_cons, Option.some.injEq] at h
      subst h
      exact Bool.eq_false_iff.mpr hp

/-- The head of trimChars is not whitespace. -/
theorem head_trimChars_not_ws {l : List Char} {c : Char}
    (h : (trimChars l).head? = some c) : isWS c = false := by
  have hpre : trimChars l <+: l.dropWhile isWS := by
    have hdrop : ((l.dropWhile isWS).reverse.dropWhile isWS) <:+
        (l.dropWhile isWS).reverse := List.dropWhile_suffix isWS
    have hsuf := List.reverse_prefix.mpr hdrop
    rwa [List.reverse_reverse] at hsuf
  obtain ⟨t, ht⟩ := hpre
  have hh : (l.dropWhile isWS).head? = some c := by
    rw [← ht, List.head?_append, h]
    rfl
  exact head_dropWhile_eq_false isWS l hh

/-- String.mk gives the empty string only on the empty list. -/
theorem stringMk_eq_empty_iff (l : List Char) : String.mk l = "" ↔ l = [] := by
  constructor
  · intro h
    have hd := congrArg String.data h
    simpa using hd
  · intro h
    subst h
    rfl

/-- normalizeGT sends blank input (input that trims to the empty string)
to the empty string. -/
theorem normalizeGT_of_blank {s : String} (h : trimStr s = "") :
    normalizeGT s = "" := by
  unfold normalizeGT
  rw [h]
  rfl

/-- insertLD gives the empty list only on the empty list. -/
theorem insertLD_eq_nil {l : List Char} (h : insertLD l = []) : l = [] := by
  unfold insertLD at h
  split_ifs at h with hm
  · exact absurd h (by simp)
  · exact h

/-- normalizeGT of a nonblank input is nonempty: the trimmed input starts
with a non-whitespace character, which survives uppercasing and
whitespace-stripping. -/
theorem normalizeGT_ne_empty {s : String} (h : trimStr s ≠ "") :
    normalizeGT s ≠ "" := by
  have hne : trimChars s.data ≠ [] := by
    intro hh
    exact h (by unfold trimStr; rw [hh])
  obtain ⟨c, rest, hcr⟩ : ∃ c rest, trimChars s.data = c :: rest := by
    cases hc : trimChars s.data with
    | nil => exact absurd hc hne
    | cons c r => exact ⟨c, r, rfl⟩
  have hcws : isWS c = false := head_trimChars_not_ws (by rw [hcr]; simp)
  have hraw : upperStr (trimStr s) ≠ "" := by
    intro hval
    unfold upperStr trimStr at hval
    rw [stringMk_eq_empty_iff] at hval
    have hval2 : (trimChars s.data).map Char.toUpper = [] := hval
    rw [hcr] at hval2
    simp at hval2
  have hmem : Char.toUpper c ∈ (stripWS (upperStr (trimStr s))).data := by
    unfold stripWS upperStr trimStr
    show Char.toUpper c ∈
      (((trimChars s.data).map Char.toUpper).filter (fun x => !(isWS x)))
    rw [hcr]
    simp [List.mem_filter, isWS_toUpper_eq_false hcws]
  unfold normalizeGT
  rw [if_neg hraw]
  intro hnil
  rw [stringMk_eq_empty_iff] at hnil
  rw [insertLD_eq_nil hnil] at hmem
  exact absurd hmem (List.not_mem_nil _)

/-- C9: a request whose gt parameter is absent, empty or whitespace-only
(it trims to the empty string) gets the 400 error response, computed
identically for every store, hence without consulting the store; a present
nonblank gt that matches no stored GTCourse code gets the success value
with empty items and total zero, not an error. -/
theorem C9_blank_gt_and_unmatched_gt (db : DB) (q : Option String) :
    (trimStr (q.getD "") = "" →
      handleEquivalents db q =
        ApiResponse.badRequest
          "gt is required. Example: /api/equivalents?gt=CS1331") ∧
    (∀ s, q = some s → trimStr s ≠ "" →
      findGT db (normalizeGT s) = none →
      handleEquivalents db q = ApiResponse.ok [] 0) := by
  constructor
  · intro h
    unfold handleEquivalents
    rw [normalizeGT_of_blank h, if_pos rfl]
  · intro s hq hs hf
    subst hq
    unfold handleEquivalents
    simp only [Option.getD_some]
    rw [if_neg (normalizeGT_ne_empty hs), hf]

/-- C9 witness: on the seeded store, a whitespace-only gt gets the 400
error and the unknown code MATH9999 gets the empty success value. -/
theorem C9_blank_gt_and_unmatched_gt_witness :
    handleEquivalents seedDB (some "   ") =
        ApiResponse.badRequest
          "gt is required. Example: /api/equivalents?gt=CS1331" ∧
      handleEquivalents seedDB (some "MATH9999") = ApiResponse.ok [] 0 :=
  ⟨(C9_blank_gt_and_unmatched_gt seedDB (some "   ")).1 (by decide),
   (C9_blank_gt_and_unmatched_gt seedDB (some "MATH9999")).2 "MATH9999" rfl
     (by decide) (by decide)⟩

/-- What a successful School insert does to the four tables. -/
theorem insertSchool_spec {db db2 : DB} {name : String} {i : Nat}
    (h : insertSchool db name = some (db2, i)) :
    db2.schools = db.schools ++ [⟨db.nextSchoolId, name⟩] ∧
      db2.gtCourses = db.gtCourses ∧
      db2.externalCourses = db.externalCourses ∧
      db2.equivalencies = db.equivalencies := by
  unfold insertSchool at h
  split_ifs at h
  simp only [Option.some.injEq, Prod.mk.injEq] at h
  obtain ⟨h1, h2⟩ := h
  subst h1
  exact ⟨rfl, rfl, rfl, rfl⟩

/-- What a successful GTCourse insert does to the four tables. -/
theorem insertGTCourse_spec {db db2 : DB} {code title : String} {credit : Rat}
    {i : Nat} (h : insertGTCourse db code title credit = some (db2, i)) :
    db2.gtCourses = db.gtCourses ++ [⟨db.nextGTCourseId, code, title, credit⟩] ∧
      db2.schools = db.schools ∧
      db2.externalCourses = db.externalCourses ∧
      db2.equivalencies = db.equivalencies := by
  unfold insertGTCourse at h
  split_ifs at h
  simp only [Option.some.injEq, Prod.mk.injEq] at h
  obtain ⟨h1, h2⟩ := h
  subst h1
  exact ⟨rfl, rfl, rfl, rfl⟩

/-- What a successful ExternalCourse insert does, including its foreign-key
guard. -/
theorem insertExternalCourse_spec {db db2 : DB} {sid : Nat}
    {code title : String} {credit : Rat} {i : Nat}
    (h : insertExternalCourse db sid code title credit = some (db2, i)) :
    db2.externalCourses = db.externalCourses ++
        [⟨db.nextExternalCourseId, sid, code, title, credit⟩] ∧
      db2.schools = db.schools ∧
      db2.gtCourses = db.gtCourses ∧
      db2.equivalencies = db.equivalencies ∧
      db.schools.any (fun s => s.id == sid) = true := by
  unfold insertExternalCourse at h
  split_ifs at h with h1 h2
  simp only [Option.some.injEq, Prod.mk.injEq] at h
  obtain ⟨h3, h4⟩ := h
  subst h3
  refine ⟨rfl, rfl, rfl, rfl, ?_⟩
  simpa using h1

/-- What a successful Equivalency insert does, including its foreign-key
and uniqueness guards. -/
theorem insertEquivalency_spec {db db2 : DB} {gid sid : Nat}
    {code sem : String} {i : Nat}
    (h : insertEquivalency db gid sid code sem = some (db2, i)) :
    db2.equivalencies = db.equivalencies ++
        [⟨db.nextEquivalencyId, gid, sid, code, sem⟩] ∧
      db2.schools = db.schools ∧
      db2.gtCourses = db.gtCourses ∧
      db2.externalCourses = db.externalCourses ∧
      db.gtCourses.any (fun g => g.id == gid) = true ∧
      db.schools.any (fun s => s.id == sid) = true ∧
      db.equivalencies.any (fun e =>
        e.gtCourseId == gid && e.schoolId == sid &&
          e.externalCourseCode == code) = false := by
  unfold insertEquivalency at h
  split_ifs at h with h1 h2 h3
  simp only [Option.some.injEq, Prod.mk.injEq] at h
  obtain ⟨h4, h5⟩ := h
  subst h4
  refine ⟨rfl, rfl, rfl, rfl, ?_, ?_, ?_⟩
  · simpa using h1
  · simpa using h2
  · simpa using h3

/-- What persister step 1 does: only schools change, old rows survive, and
the returned id names an existing school. -/
theorem getOrInsertSchool_spec (db : DB) (name : String) :
    (getOrInsertSchool db name).1.gtCourses = db.gtCourses ∧
      (getOrInsertSchool db name).1.externalCourses = db.externalCourses ∧
      (getOrInsertSchool db name).1.equivalencies = db.equivalencies ∧
      (∃ s ∈ (getOrInsertSchool db name).1.schools,
        s.id = (getOrInsertSchool db name).2) ∧
      (∀ s ∈ db.schools, s ∈ (getOrInsertSchool db name).1.schools) := by
  unfold getOrInsertSchool
  cases hf : db.schools.find? (fun s => s.name == name) with
  | some s =>
    exact ⟨rfl, rfl, rfl, ⟨s, List.mem_of_find?_eq_some hf, rfl⟩, fun x hx => hx⟩
  | none =>
    refine ⟨rfl, rfl, rfl,
      ⟨⟨db.nextSchoolId, name⟩, List.mem_append_right _ (by simp), rfl⟩,
      fun x hx => List.mem_append_left _ hx⟩

/-- What persister step 2 does: only gtCourses change, row ids survive, the
returned id names an existing course, and every resulting credit-hour value
is either the upserted one or one already present. -/
theorem upsertGTCourse_spec (db : DB) (code title : String) (credit : Rat) :
    (upsertGTCourse db code title credit).1.schools = db.schools ∧
      (upsertGTCourse db code title credit).1.externalCourses =
        db.externalCourses ∧
      (upsertGTCourse db code title credit).1.equivalencies =
        db.equivalencies ∧
      (∃ g ∈ (upsertGTCourse db code title credit).1.gtCourses,
        g.id = (upsertGTCourse db code title credit).2) ∧
      (∀ i, (∃ g ∈ db.gtCourses, g.id = i) →
        ∃ g ∈ (upsertGTCourse db code title credit).1.gtCourses, g.id = i) ∧
      (∀ g ∈ (upsertGTCourse db code title credit).1.gtCourses,
        g.creditHours = credit ∨
          ∃ g0 ∈ db.gtCourses, g.creditHours = g0.creditHours) := by
  unfold upsertGTCourse
  cases hf : db.gtCourses.find? (fun g => g.code == code) with
  | some g =>
    refine ⟨rfl, rfl, rfl, ?_, ?_, ?_⟩
    · refine ⟨if g.id == g.id then { g with title := title, creditHours := credit }
        else g, List.mem_map_of_mem _ (List.mem_of_find?_eq_some hf), ?_⟩
      split_ifs <;> rfl
    · intro i hi
      obtain ⟨g0, hg0, hid⟩ := hi
      refine ⟨if g0.id == g.id then { g0 with title := title, creditHours := credit }
        else g0, List.mem_map_of_mem _ hg0, ?_⟩
      split_ifs <;> simpa using hid
    · intro x hx
      obtain ⟨g0, hg0, hfx⟩ := List.mem_map.mp hx
      by_cases hid : (g0.id == g.id) = true
      · left
        rw [← hfx, if_pos hid]
      · right
        exact ⟨g0, hg0, by rw [← hfx, if_neg hid]⟩
  | none =>
    refine ⟨rfl, rfl, rfl,
      ⟨⟨db.nextGTCourseId, code, title, credit⟩,
        List.mem_append_right _ (by simp), rfl⟩,
      ?_, ?_⟩
    · intro i hi
      obtain ⟨g0, hg0, hid⟩ := hi
      exact ⟨g0, List.mem_append_left _ hg0, hid⟩
    · intro x hx
      rcases List.mem_append.mp hx with hx0 | hx1
      · exact Or.inr ⟨x, hx0, rfl⟩
      · left
        have hx2 : x = ⟨db.nextGTCourseId, code, title, credit⟩ := by simpa using hx1
        rw [hx2]

/-- What persister step 3 does: only externalCourses change, and every
resulting row carries either the given schoolId or a schoolId already
present; every resulting credit-hour value is the upserted one or one
already present. -/
theorem upsertExternalCourse_spec (db : DB) (sid : Nat) (code title : String)
    (credit : Rat) :
    (upsertExternalCourse db sid code title credit).1.schools = db.schools ∧
      (upsertExternalCourse db sid code title credit).1.gtCourses =
        db.gtCourses ∧
      (upsertExternalCourse db sid code title credit).1.equivalencies =
        db.equivalencies ∧
      (∀ c ∈ (upsertExternalCourse db sid code title credit).1.externalCourses,
        c.schoolId = sid ∨
          ∃ c0 ∈ db.externalCourses, c.schoolId = c0.schoolId) ∧
      (∀ c ∈ (upsertExternalCourse db sid code title credit).1.externalCourses,
        c.creditHours = credit ∨
          ∃ c0 ∈ db.externalCourses, c.creditHours = c0.creditHours) := by
  unfold upsertExternalCourse
  cases hf : db.externalCourses.find? (fun c => c.schoolId == sid && c.code == code) with
  | some c =>
    refine ⟨rfl, rfl, rfl, ?_, ?_⟩
    · intro x hx
      obtain ⟨c0, hc0, hfx⟩ := List.mem_map.mp hx
      right
      refine ⟨c0, hc0, ?_⟩
      rw [← hfx]
      split_ifs <;> rfl
    · intro x hx
      obtain ⟨c0, hc0, hfx⟩ := List.mem_map.mp hx
      by_cases hid : (c0.id == c.id) = true
      · left
        rw [← hfx, if_pos hid]
      · right
        exact ⟨c0, hc0, by rw [← hfx, if_neg hid]⟩
  | none =>
    refine ⟨rfl, rfl, rfl, ?_, ?_⟩
    · intro x hx
      rcases List.mem_append.mp hx with hx0 | hx1
      · exact Or.inr ⟨x, hx0, rfl⟩
      · left
        have hx2 : x = ⟨db.nextExternalCourseId, sid, code, title, credit⟩ := by
          simpa using hx1
        rw [hx2]
    · intro x hx
      rcases List.mem_append.mp hx with hx0 | hx1
      · exact Or.inr ⟨x, hx0, rfl⟩
      · left
        have hx2 : x = ⟨db.nextExternalCourseId, sid, code, title, credit⟩ := by
          simpa using hx1
        rw [hx2]

/-- What persister step 4 does: the first three tables are untouched, every
resulting Equivalency row carries either the given pair of foreign ids or a
pair already present, and triple uniqueness is preserved. -/
theorem upsertEquivalency_spec (db : DB) (gid sid : Nat) (code sem : String) :
    (upsertEquivalency db gid sid code sem).schools = db.schools ∧
      (upsertEquivalency db gid sid code sem).gtCourses = db.gtCourses ∧
      (upsertEquivalency db gid sid code sem).externalCourses =
        db.externalCourses ∧
      (∀ e ∈ (upsertEquivalency db gid sid code sem).equivalencies,
        (e.gtCourseId = gid ∧ e.schoolId = sid) ∨
          ∃ e0 ∈ db.equivalencies,
            e.gtCourseId = e0.gtCourseId ∧ e.schoolId = e0.schoolId) ∧
      (EquivUnique db →
        (upsertEquivalency db gid sid code sem).equivalencies.Pairwise
          (fun a b => eqTriple a ≠ eqTriple b)) := by
  unfold upsertEquivalency
  cases hf : db.equivalencies.find? (fun e =>
      e.gtCourseId == gid && e.schoolId == sid &&
        e.externalCourseCode == code) with
  | some e =>
    refine ⟨rfl, rfl, rfl, ?_, ?_⟩
    · intro x hx
      obtain ⟨e0, he0, hfx⟩ := List.mem_map.mp hx
      right
      refine ⟨e0, he0, ?_⟩
      rw [← hfx]
      constructor <;> (split_ifs <;> rfl)
    · intro hu
      rw [List.pairwise_map]
      refine hu.imp ?_
      intro a b hab
      have ha : eqTriple (if a.id == e.id then { a with semester := sem } else a) =
          eqTriple a := by
        split_ifs <;> rfl
      have hb : eqTriple (if b.id == e.id then { b with semester := sem } else b) =
          eqTriple b := by
        split_ifs <;> rfl
      rw [ha, hb]
      exact hab
  | none =>
    refine ⟨rfl, rfl, rfl, ?_, ?_⟩
    · intro x hx
      rcases List.mem_append.mp hx with hx0 | hx1
      · exact Or.inr ⟨x, hx0, rfl, rfl⟩
      · left
        have hx2 : x = ⟨db.nextEquivalencyId, gid, sid, code, sem⟩ := by
          simpa using hx1
        rw [hx2]
        exact ⟨rfl, rfl⟩
    · intro hu
      rw [List.pairwise_append]
      refine ⟨hu, by simp, ?_⟩
      intro a ha b hb
      have hb2 : b = ⟨db.nextEquivalencyId, gid, sid, code, sem⟩ := by simpa using hb
      subst hb2
      have hnp := List.find?_eq_none.mp hf a ha
      intro htrip
      apply hnp
      have h1 : a.gtCourseId = gid := congrArg (fun t => t.1) htrip
      have h2 : a.schoolId = sid := congrArg (fun t => t.2.1) htrip
      have h3 : a.externalCourseCode = code := congrArg (fun t => t.2.2) htrip
      simp [h1, h2, h3]

/-- The persister preserves triple uniqueness of Equivalency rows. -/
theorem persist_EquivUnique (db : DB) (n : NormalizedRecord)
    (hu : EquivUnique db) : EquivUnique (persistRecord db n) := by
  obtain ⟨g1gt, g1ext, g1eq, hs1, h1mono⟩ := getOrInsertSchool_spec db n.schoolName
  obtain ⟨g2s, g2ext, g2eq, hg2, h2mono, h2credit⟩ :=
    upsertGTCourse_spec (getOrInsertSchool db n.schoolName).1
      n.gtCode n.gtTitle n.gtCredit
  obtain ⟨g3s, g3gt, g3eq, h3school, h3credit⟩ :=
    upsertExternalCourse_spec
      (upsertGTCourse (getOrInsertSchool db n.schoolName).1
        n.gtCode n.gtTitle n.gtCredit).1
      (getOrInsertSchool db n.schoolName).2 n.extCode n.extTitle n.extCredit
  obtain ⟨g4s, g4gt, g4ext, h4rows, h4uniq⟩ :=
    upsertEquivalency_spec
      (upsertExternalCourse
        (upsertGTCourse (getOrInsertSchool db n.schoolName).1
          n.gtCode n.gtTitle n.gtCredit).1
        (getOrInsertSchool db n.schoolName).2 n.extCode n.extTitle n.extCredit).1
      (upsertGTCourse (getOrInsertSchool db n.schoolName).1
        n.gtCode n.gtTitle n.gtCredit).2
      (getOrInsertSchool db n.schoolName).2 n.extCode n.semester
  have hu3 : EquivUnique (upsertExternalCourse
      (upsertGTCourse (getOrInsertSchool db n.schoolName).1
        n.gtCode n.gtTitle n.gtCredit).1
      (getOrInsertSchool db n.schoolName).2 n.extCode n.extTitle n.extCredit).1 := by
    unfold EquivUnique
    rw [g3eq, g2eq, g1eq]
    exact hu
  exact h4uniq hu3

/-- The persister preserves referential integrity. -/
theorem persist_RefIntegrity (db : DB) (n : NormalizedRecord)
    (hr : RefIntegrity db) : RefIntegrity (persistRecord db n) := by
  obtain ⟨ihr1, ihr2⟩ := hr
  obtain ⟨g1gt, g1ext, g1eq, hs1, h1mono⟩ := getOrInsertSchool_spec db n.schoolName
  obtain ⟨g2s, g2ext, g2eq, hg2, h2mono, h2credit⟩ :=
    upsertGTCourse_spec (getOrInsertSchool db n.schoolName).1
      n.gtCode n.gtTitle n.gtCredit
  obtain ⟨g3s, g3gt, g3eq, h3school, h3credit⟩ :=
    upsertExternalCourse_spec
      (upsertGTCourse (getOrInsertSchool db n.schoolName).1
        n.gtCode n.gtTitle n.gtCredit).1
      (getOrInsertSchool db n.schoolName).2 n.extCode n.extTitle n.extCredit
  obtain ⟨g4s, g4gt, g4ext, h4rows, h4uniq⟩ :=
    upsertEquivalency_spec
      (upsertExternalCourse
        (upsertGTCourse (getOrInsertSchool db n.schoolName).1
          n.gtCode n.gtTitle n.gtCredit).1
        (getOrInsertSchool db n.schoolName).2 n.extCode n.extTitle n.extCredit).1
      (upsertGTCourse (getOrInsertSchool db n.schoolName).1
        n.gtCode n.gtTitle n.gtCredit).2
      (getOrInsertSchool db n.schoolName).2 n.extCode n.semester
  have hschools : (persistRecord db n).schools =
      (getOrInsertSchool db n.schoolName).1.schools := by
    rw [show (persistRecord db n).schools = _ from g4s, g3s, g2s]
  have hgts : (persistRecord db n).gtCourses =
      (upsertGTCourse (getOrInsertSchool db n.schoolName).1
        n.gtCode n.gtTitle n.gtCredit).1.gtCourses := by
    rw [show (persistRecord db n).gtCourses = _ from g4gt, g3gt]
  constructor
  · intro e he
    have he2 := h4rows e he
    rcases he2 with ⟨hgid, hsid⟩ | ⟨e0, he0, hgeq, hseq⟩
    · obtain ⟨s1, hs1m, hs1i⟩ := hs1
      obtain ⟨gg, hggm, hggi⟩ := hg2
      refine ⟨⟨s1, ?_, ?_⟩, ⟨gg, ?_, ?_⟩⟩
      · rw [hschools]
        exact hs1m
      · rw [hsid, hs1i]
      · rw [hgts]
        exact hggm
      · rw [hgid, hggi]
    · have he0db : e0 ∈ db.equivalencies := by
        rw [← g1eq, ← g2eq, ← g3eq]
        exact he0
      obtain ⟨⟨s, hsm, hsi⟩, ⟨g, hgm, hgi⟩⟩ := ihr1 e0 he0db
      have hgnew : ∃ g2 ∈ (upsertGTCourse (getOrInsertSchool db n.schoolName).1
          n.gtCode n.gtTitle n.gtCredit).1.gtCourses, g2.id = e0.gtCourseId := by
        apply h2mono
        refine ⟨g, ?_, hgi⟩
        rw [g1gt]
        exact hgm
      obtain ⟨g2r, hg2m2, hg2i2⟩ := hgnew
      refine ⟨⟨s, ?_, ?_⟩, ⟨g2r, ?_, ?_⟩⟩
      · rw [hschools]
        exact h1mono s hsm
      · rw [hseq, hsi]
      · rw [hgts]
        exact hg2m2
      · rw [hgeq, hg2i2]
  · intro c hc
    have hc3 : c ∈ (upsertExternalCourse
        (upsertGTCourse (getOrInsertSchool db n.schoolName).1
          n.gtCode n.gtTitle n.gtCredit).1
        (getOrInsertSchool db n.schoolName).2
        n.extCode n.extTitle n.extCredit).1.externalCourses := by
      rw [← g4ext]
      exact hc
    rcases h3school c hc3 with hcs | ⟨c0, hc0, hceq⟩
    · obtain ⟨s1, hs1m, hs1i⟩ := hs1
      refine ⟨s1, ?_, ?_⟩
      · rw [hschools]
        exact hs1m
      · rw [hcs, hs1i]
    · have hc0db : c0 ∈ db.externalCourses := by
        rw [← g1ext, ← g2ext]
        exact hc0
      obtain ⟨s, hsm, hsi⟩ := ihr2 c0 hc0db
      refine ⟨s, ?_, ?_⟩
      · rw [hschools]
        exact h1mono s hsm
      · rw [hceq, hsi]

/-- Every reachable store satisfies triple uniqueness and referential
integrity. -/
theorem reachable_invariants {db : DB} (h : Reachable db) :
    EquivUnique db ∧ RefIntegrity db := by
  induction h with
  | empty =>
    constructor
    · simp [EquivUnique, emptyDB]
    · constructor <;> simp [emptyDB]
  | insSchool db db2 name i hr hins ih =>
    obtain ⟨hs, hg, hx, he⟩ := insertSchool_spec hins
    obtain ⟨ihu, ihr1, ihr2⟩ := ih
    refine ⟨?_, ?_, ?_⟩
    · unfold EquivUnique at ihu ⊢
      rw [he]
      exact ihu
    · intro e hee
      rw [he] at hee
      obtain ⟨⟨s, hsm, hsi⟩, ⟨g, hgm, hgi⟩⟩ := ihr1 e hee
      rw [hs, hg]
      exact ⟨⟨s, List.mem_append_left _ hsm, hsi⟩, ⟨g, hgm, hgi⟩⟩
    · intro c hcc
      rw [hx] at hcc
      obtain ⟨s, hsm, hsi⟩ := ihr2 c hcc
      rw [hs]
      exact ⟨s, List.mem_append_left _ hsm, hsi⟩
  | insGTCourse db db2 code title credit i hr hins ih =>
    obtain ⟨hg, hs, hx, he⟩ := insertGTCourse_spec hins
    obtain ⟨ihu, ihr1, ihr2⟩ := ih
    refine ⟨?_, ?_, ?_⟩
    · unfold EquivUnique at ihu ⊢
      rw [he]
      exact ihu
    · intro e hee
      rw [he] at hee
      obtain ⟨⟨s, hsm, hsi⟩, ⟨g, hgm, hgi⟩⟩ := ihr1 e hee
      rw [hs, hg]
      exact ⟨⟨s, hsm, hsi⟩, ⟨g, List.mem_append_left _ hgm, hgi⟩⟩
    · intro c hcc
      rw [hx] at hcc
      obtain ⟨s, hsm, hsi⟩ := ihr2 c hcc
      rw [hs]
      exact ⟨s, hsm, hsi⟩
  | insExternalCourse db db2 sid code title credit i hr hins ih =>
    obtain ⟨hx, hs, hg, he, hguard⟩ := insertExternalCourse_spec hins
    obtain ⟨ihu, ihr1, ihr2⟩ := ih
    have hsid : ∃ s ∈ db.schools, s.id = sid := by
      simpa using hguard
    refine ⟨?_, ?_, ?_⟩
    · unfold EquivUnique at ihu ⊢
      rw [he]
      exact ihu
    · intro e hee
      rw [he] at hee
      obtain ⟨⟨s, hsm, hsi⟩, ⟨g, hgm, hgi⟩⟩ := ihr1 e hee
      rw [hs, hg]
      exact ⟨⟨s, hsm, hsi⟩, ⟨g, hgm, hgi⟩⟩
    · intro c hcc
      rw [hx] at hcc
      rw [hs]
      rcases List.mem_append.mp hcc with hc0 | hc1
      · exact ihr2 c hc0
      · obtain ⟨s, hsm, hsi⟩ := hsid
        have hc2 : c = ⟨db.nextExternalCourseId, sid, code, title, credit⟩ := by
          simpa using hc1
        rw [hc2]
        exact ⟨s, hsm, hsi⟩
  | insEquivalency db db2 gid sid code sem i hr hins ih =>
    obtain ⟨he, hs, hg, hx, hgid, hsid, hdup⟩ := insertEquivalency_spec hins
    obtain ⟨ihu, ihr1, ihr2⟩ := ih
    have hgid2 : ∃ g ∈ db.gtCourses, g.id = gid := by simpa using hgid
    have hsid2 : ∃ s ∈ db.schools, s.id = sid := by simpa using hsid
    refine ⟨?_, ?_, ?_⟩
    · unfold EquivUnique at ihu ⊢
      rw [he, List.pairwise_append]
      refine ⟨ihu, by simp, ?_⟩
      intro a ha b hb
      have hb2 : b = ⟨db.nextEquivalencyId, gid, sid, code, sem⟩ := by simpa using hb
      subst hb2
      intro htrip
      have h1 : a.gtCourseId = gid := congrArg (fun t => t.1) htrip
      have h2 : a.schoolId = sid := congrArg (fun t => t.2.1) htrip
      have h3 : a.externalCourseCode = code := congrArg (fun t => t.2.2) htrip
      have hfalse := List.any_eq_false.mp hdup a ha
      apply hfalse
      simp [h1, h2, h3]
    · intro e hee
      rw [he] at hee
      rw [hs, hg]
      rcases List.mem_append.mp hee with he0 | he1
      · exact ihr1 e he0
      · have he2 : e = ⟨db.nextEquivalencyId, gid, sid, code, sem⟩ := by
          simpa using he1
        rw [he2]
        exact ⟨hsid2, hgid2⟩
    · intro c hcc
      rw [hx] at hcc
      rw [hs]
      exact ihr2 c hcc
  | delSchool db sid hr ih =>
    obtain ⟨ihu, ihr1, ihr2⟩ := ih
    refine ⟨?_, ?_, ?_⟩
    · unfold EquivUnique at ihu ⊢
      exact List.Pairwise.sublist (List.filter_sublist _) ihu
    · intro e hee
      obtain ⟨hemem, hens⟩ := List.mem_filter.mp hee
      obtain ⟨⟨s, hsm, hsi⟩, ⟨g, hgm, hgi⟩⟩ := ihr1 e hemem
      refine ⟨⟨s, ?_, hsi⟩, ⟨g, hgm, hgi⟩⟩
      apply List.mem_filter.mpr
      refine ⟨hsm, ?_⟩
      simp only [Bool.not_eq_eq_eq_not, Bool.not_true, beq_eq_false_iff_ne] at hens ⊢
      rw [hsi]
      exact hens
    · intro c hcc
      obtain ⟨hcmem, hcns⟩ := List.mem_filter.mp hcc
      obtain ⟨s, hsm, hsi⟩ := ihr2 c hcmem
      refine ⟨s, ?_, hsi⟩
      apply List.mem_filter.mpr
      refine ⟨hsm, ?_⟩
      simp only [Bool.not_eq_eq_eq_not, Bool.not_true, beq_eq_false_iff_ne] at hcns ⊢
      rw [hsi]
      exact hcns
  | delGTCourse db gid hr ih =>
    obtain ⟨ihu, ihr1, ihr2⟩ := ih
    refine ⟨?_, ?_, ?_⟩
    · unfold EquivUnique at ihu ⊢
      exact List.Pairwise.sublist (List.filter_sublist _) ihu
    · intro e hee
      obtain ⟨hemem, heng⟩ := List.mem_filter.mp hee
      obtain ⟨⟨s, hsm, hsi⟩, ⟨g, hgm, hgi⟩⟩ := ihr1 e hemem
      refine ⟨⟨s, hsm, hsi⟩, ⟨g, ?_, hgi⟩⟩
      apply List.mem_filter.mpr
      refine ⟨hgm, ?_⟩
      simp only [Bool.not_eq_eq_eq_not, Bool.not_true, beq_eq_false_iff_ne] at heng ⊢
      rw [hgi]
      exact heng
    · intro c hcc
      exact ihr2 c hcc
  | persist db n hr ih =>
    obtain ⟨ihu, ihr⟩ := ih
    exact ⟨persist_EquivUnique db n ihu, persist_RefIntegrity db n ihr⟩

/-- The seeded store is reachable: the seed block (src lines 57-82) is the
insert sequence below. -/
theorem seedDB_reachable : Reachable seedDB := by
  have h1 := Reachable.empty
  have h2 := Reachable.insSchool _ _ "Georgia State University" 1 h1 rfl
  have h3 := Reachable.insSchool _ _ "Kennesaw State University" 2 h2 rfl
  have h4 := Reachable.insGTCourse _ _ "CS 1331"
    "Introduction to Object Oriented Programming" 3 1 h3 rfl
  have h5 := Reachable.insGTCourse _ _ "CS 1332"
    "Data Structures and Algorithms" 3 2 h4 rfl
  have h6 := Reachable.insExternalCourse _ _ 1 "CSC 2510"
    "Object Oriented Programming" 3 1 h5 rfl
  have h7 := Reachable.insExternalCourse _ _ 2 "CS 2302"
    "Object Oriented Programming" 3 2 h6 rfl
  have h8 := Reachable.insExternalCourse _ _ 1 "CSC 2720"
    "Data Structures" 3 3 h7 rfl
  have h9 := Reachable.insEquivalency _ _ 1 1 "CSC 2510" "Fall 2025" 1 h8 rfl
  have h10 := Reachable.insEquivalency _ _ 1 2 "CS 2302" "Fall 2025" 2 h9 rfl
  have h11 := Reachable.insEquivalency _ _ 2 1 "CSC 2720" "Fall 2025" 3 h10 rfl
  exact h11

/-- C4: in every reachable store state the Equivalency rows are unique per
(gtCourseId, schoolId, externalCourseCode): no two rows share that triple,
so neither a raw insert nor a persister re-scrape of the same fact can
leave two rows with it. -/
theorem C4_equivalency_triple_unique {db : DB} (h : Reachable db) :
    db.equivalencies.Pairwise (fun a b => eqTriple a ≠ eqTriple b) :=
  (reachable_invariants h).1

/-- C4 witness: the seeded store, reached by the seed inserts, has pairwise
distinct Equivalency triples. -/
theorem C4_equivalency_triple_unique_witness :
    seedDB.equivalencies.Pairwise (fun a b => eqTriple a ≠ eqTriple b) :=
  C4_equivalency_triple_unique seedDB_reachable

/-- C5: every reachable store has referential integrity (each Equivalency
row references an existing School and GTCourse, each ExternalCourse an
existing School), and the cascading deletes leave no dangling references:
after deleting a School no ExternalCourse or Equivalency row references
it, after deleting a GTCourse no Equivalency row references it, and the
resulting stores are again reachable, hence again have integrity. -/
theorem C5_ref_integrity_and_cascade {db : DB} (h : Reachable db) :
    RefIntegrity db ∧
      (∀ sid, RefIntegrity (deleteSchool db sid) ∧
        (∀ c ∈ (deleteSchool db sid).externalCourses, c.schoolId ≠ sid) ∧
        (∀ e ∈ (deleteSchool db sid).equivalencies, e.schoolId ≠ sid)) ∧
      (∀ gid, RefIntegrity (deleteGTCourse db gid) ∧
        ∀ e ∈ (deleteGTCourse db gid).equivalencies, e.gtCourseId ≠ gid) := by
  refine ⟨(reachable_invariants h).2, ?_, ?_⟩
  · intro sid
    refine ⟨(reachable_invariants (Reachable.delSchool db sid h)).2, ?_, ?_⟩
    · intro c hc
      have hcf := (List.mem_filter.mp hc).2
      simpa using hcf
    · intro e he
      have hef := (List.mem_filter.mp he).2
      simpa using hef
  · intro gid
    refine ⟨(reachable_invariants (Reachable.delGTCourse db gid h)).2, ?_⟩
    intro e he
    have hef := (List.mem_filter.mp he).2
    simpa using hef

/-- C5 witness: the seeded store has integrity, and deleting school 1 or
GT course 1 leaves no dangling references. -/
theorem C5_ref_integrity_and_cascade_witness :
    RefIntegrity seedDB ∧
      RefIntegrity (deleteSchool seedDB 1) ∧
      (∀ e ∈ (deleteSchool seedDB 1).equivalencies, e.schoolId ≠ 1) ∧
      RefIntegrity (deleteGTCourse seedDB 1) ∧
      (∀ e ∈ (deleteGTCourse seedDB 1).equivalencies, e.gtCourseId ≠ 1) := by
  obtain ⟨hint, hds, hdg⟩ := C5_ref_integrity_and_cascade seedDB_reachable
  exact ⟨hint, (hds 1).1, (hds 1).2.2, (hdg 1).1, (hdg 1).2⟩

/-- The character-list order is asymmetric. -/
theorem charListLt_asymm : ∀ (a b : List Char),
    charListLt a b = true → charListLt b a = false
  | [], [] => by simp [charListLt]
  | [], _ :: _ => by simp [charListLt]
  | _ :: _, [] => by simp [charListLt]
  | x :: xs, y :: ys => by
    intro h
    unfold charListLt at h ⊢
    by_cases hxy : x < y
    · rw [if_neg (lt_asymm hxy), if_pos hxy]
    · rw [if_neg hxy] at h
      by_cases hyx : y < x
      · rw [if_pos hyx] at h
        exact absurd h (by simp)
      · rw [if_neg hyx] at h
        rw [if_neg hyx, if_neg hxy]
        exact charListLt_asymm xs ys h

/-- The character-list order is transitive. -/
theorem charListLt_trans : ∀ (a b c : List Char),
    charListLt a b = true → charListLt b c = true → charListLt a c = true
  | a, b, [] => by
    intro h1 h2
    exact absurd h2 (by cases b <;> simp [charListLt])
  | a, [], c :: cs => by
    intro h1 h2
    exact absurd h1 (by cases a <;> simp [charListLt])
  | [], b :: bs, c :: cs => by
    intro h1 h2
    simp [charListLt]
  | a :: as, b :: bs, c :: cs => by
    intro h1 h2
    unfold charListLt at h1 h2 ⊢
    by_cases hab : a < b
    · by_cases hbc : b < c
      · rw [if_pos (lt_trans hab hbc)]
      · rw [if_neg hbc] at h2
        by_cases hcb : c < b
        · rw [if_pos hcb] at h2
          exact absurd h2 (by simp)
        · have hbceq : b = c := le_antisymm (le_of_not_lt hcb) (le_of_not_lt hbc)
          have hac : a < c := by rw [← hbceq]; exact hab
          rw [if_pos hac]
    · rw [if_neg hab] at h1
      by_cases hba : b < a
      · rw [if_pos hba] at h1
        exact absurd h1 (by simp)
      · rw [if_neg hba] at h1
        have habeq : a = b := le_antisymm (le_of_not_lt hba) (le_of_not_lt hab)
        by_cases hbc : b < c
        · have hac : a < c := by rw [habeq]; exact hbc
          rw [if_pos hac]
        · rw [if_neg hbc] at h2
          by_cases hcb : c < b
          · rw [if_pos hcb] at h2
            exact absurd h2 (by simp)
          · rw [if_neg hcb] at h2
            have hac : ¬ a < c := by rw [habeq]; exact hbc
            have hca : ¬ c < a := by rw [habeq]; exact hcb
            rw [if_neg hac, if_neg hca]
            exact charListLt_trans as bs cs h1 h2

/-- Two character lists neither of which precedes the other are equal. -/
theorem charListLt_connex : ∀ (a b : List Char),
    charListLt a b = false → charListLt b a = false → a = b
  | [], [] => by
    intro h1 h2
    rfl
  | [], _ :: _ => by
    intro h1 h2
    exact absurd h1 (by simp [charListLt])
  | _ :: _, [] => by
    intro h1 h2
    exact absurd h2 (by simp [charListLt])
  | x :: xs, y :: ys => by
    intro h1 h2
    unfold charListLt at h1 h2
    by_cases hxy : x < y
    · rw [if_pos hxy] at h1
      exact absurd h1 (by simp)
    · rw [if_neg hxy] at h1
      by_cases hyx : y < x
      · rw [if_pos hyx] at h2
        exact absurd h2 (by simp)
      · rw [if_neg hyx] at h1
        rw [if_neg hyx, if_neg hxy] at h2
        have hxyeq : x = y := le_antisymm (le_of_not_lt hyx) (le_of_not_lt hxy)
        have hrest := charListLt_connex xs ys h1 h2
        rw [hxyeq, hrest]

/-- The character-list order is irreflexive. -/
theorem charListLt_irrefl : ∀ (a : List Char), charListLt a a = false
  | [] => by simp [charListLt]
  | x :: xs => by
    unfold charListLt
    rw [if_neg (lt_irrefl x), if_neg (lt_irrefl x)]
    exact charListLt_irrefl xs

/-- String comparison is asymmetric. -/
theorem strLt_asymm {a b : String} (h : strLt a b = true) : strLt b a = false :=
  charListLt_asymm _ _ h

/-- String comparison is transitive. -/
theorem strLt_trans {a b c : String} (h1 : strLt a b = true)
    (h2 : strLt b c = true) : strLt a c = true :=
  charListLt_trans _ _ _ h1 h2

/-- String comparison is irreflexive. -/
theorem strLt_irrefl (a : String) : strLt a a = false :=
  charListLt_irrefl _

/-- Strings neither of which precedes the other are equal. -/
theorem strLt_connex {a b : String} (h1 : strLt a b = false)
    (h2 : strLt b a = false) : a = b := by
  cases a with
  | mk la =>
    cases b with
    | mk lb =>
      have hl := charListLt_connex la lb h1 h2
      rw [hl]

/-- The null-first option order is asymmetric. -/
theorem optCodeLt_asymm : ∀ {a b : Option String},
    optCodeLt a b = true → optCodeLt b a = false
  | none, none, h => by simp [optCodeLt] at h
  | none, some _, _ => by simp [optCodeLt]
  | some _, none, h => by simp [optCodeLt] at h
  | some x, some y, h => strLt_asymm h

/-- The null-first option order is transitive. -/
theorem optCodeLt_trans : ∀ {a b c : Option String},
    optCodeLt a b = true → optCodeLt b c = true → optCodeLt a c = true
  | _, none, none, _, h2 => by simp [optCodeLt] at h2
  | _, some _, none, _, h2 => by simp [optCodeLt] at h2
  | none, _, some _, _, _ => by simp [optCodeLt]
  | some _, none, some _, h1, _ => by simp [optCodeLt] at h1
  | some x, some y, some z, h1, h2 => strLt_trans h1 h2

/-- Option codes neither of which precedes the other are equal. -/
theorem optCodeLt_connex : ∀ {a b : Option String},
    optCodeLt a b = false → optCodeLt b a = false → a = b
  | none, none, _, _ => rfl
  | none, some _, h1, _ => by simp [optCodeLt] at h1
  | some _, none, _, h2 => by simp [optCodeLt] at h2
  | some x, some y, h1, h2 => by rw [strLt_connex h1 h2]

/-- The ORDER BY comparison is asymmetric. -/
theorem itemLt_asymm {a b : QueryItem} (h : itemLt a b = true) :
    itemLt b a = false := by
  simp only [itemLt, Bool.or_eq_true, Bool.and_eq_true, Bool.not_eq_true'] at h
  rcases h with hab | ⟨h1, h2⟩
  · simp [itemLt, strLt_asymm hab, hab]
  · simp [itemLt, h1, optCodeLt_asymm h2]

/-- The ORDER BY comparison is transitive. -/
theorem itemLt_trans {a b c : QueryItem} (h1 : itemLt a b = true)
    (h2 : itemLt b c = true) : itemLt a c = true := by
  simp only [itemLt, Bool.or_eq_true, Bool.and_eq_true, Bool.not_eq_true']
    at h1 h2 ⊢
  rcases h1 with h1 | ⟨h1a, h1b⟩
  · rcases h2 with h2 | ⟨h2a, h2b⟩
    · exact Or.inl (strLt_trans h1 h2)
    · by_cases hsbc : strLt b.schoolName c.schoolName = true
      · exact Or.inl (strLt_trans h1 hsbc)
      · have heq : b.schoolName = c.schoolName :=
          strLt_connex (Bool.eq_false_iff.mpr hsbc) h2a
        left
        rw [← heq]
        exact h1
  · rcases h2 with h2 | ⟨h2a, h2b⟩
    · by_cases hsab : strLt a.schoolName b.schoolName = true
      · exact Or.inl (strLt_trans hsab h2)
      · have heq : a.schoolName = b.schoolName :=
          strLt_connex (Bool.eq_false_iff.mpr hsab) h1a
        left
        rw [heq]
        exact h2
    · by_cases hsab : strLt a.schoolName b.schoolName = true
      · by_cases hsbc : strLt b.schoolName c.schoolName = true
        · exact Or.inl (strLt_trans hsab hsbc)
        · have heq : b.schoolName = c.schoolName :=
            strLt_connex (Bool.eq_false_iff.mpr hsbc) h2a
          left
          rw [← heq]
          exact hsab
      · have heqab : a.schoolName = b.schoolName :=
          strLt_connex (Bool.eq_false_iff.mpr hsab) h1a
        by_cases hsbc : strLt b.schoolName c.schoolName = true
        · left
          rw [heqab]
          exact hsbc
        · have heqbc : b.schoolName = c.schoolName :=
            strLt_connex (Bool.eq_false_iff.mpr hsbc) h2a
          right
          constructor
          · rw [← heqbc, ← heqab, strLt_irrefl]
          · exact optCodeLt_trans h1b h2b

/-- Items neither of which precedes the other agree on both sort keys. -/
theorem itemLt_keys_eq {a b : QueryItem} (h1 : itemLt a b = false)
    (h2 : itemLt b a = false) :
    a.schoolName = b.schoolName ∧
      a.externalCourseCode = b.externalCourseCode := by
  simp only [itemLt, Bool.or_eq_false_iff, Bool.and_eq_false_iff,
    Bool.not_eq_false'] at h1 h2
  obtain ⟨hs1, hrest1⟩ := h1
  obtain ⟨hs2, hrest2⟩ := h2
  have hname : a.schoolName = b.schoolName := strLt_connex hs1 hs2
  refine ⟨hname, ?_⟩
  rcases hrest1 with hx | hopt1
  · rw [hx] at hs2
    exact absurd hs2 (by simp)
  · rcases hrest2 with hy | hopt2
    · rw [hy] at hs1
      exact absurd hs1 (by simp)
    · exact optCodeLt_connex hopt1 hopt2

/-- The sort order of the handler is total. -/
theorem itemLE_total (a b : QueryItem) : itemLE a b ∨ itemLE b a := by
  unfold itemLE
  by_cases h : itemLt b a = true
  · exact Or.inr (itemLt_asymm h)
  · exact Or.inl (Bool.eq_false_iff.mpr h)

/-- The sort order of the handler is transitive. -/
theorem itemLE_trans {a b c : QueryItem} (h1 : itemLE a b) (h2 : itemLE b c) :
    itemLE a c := by
  unfold itemLE at h1 h2 ⊢
  by_cases hca : itemLt c a = true
  · by_cases hbc : itemLt b c = true
    · have hba := itemLt_trans hbc hca
      rw [hba] at h1
      exact absurd h1 (by simp)
    · have hkey := itemLt_keys_eq (Bool.eq_false_iff.mpr hbc) h2
      have hrw : itemLt c a = itemLt b a := by
        unfold itemLt
        rw [← hkey.1, ← hkey.2]
      rw [hrw] at hca
      rw [hca] at h1
      exact absurd h1 (by simp)
  · exact Bool.eq_false_iff.mpr hca

instance : IsTotal QueryItem itemLE := ⟨itemLE_total⟩

instance : IsTrans QueryItem itemLE := ⟨fun _ _ _ h1 h2 => itemLE_trans h1 h2⟩

/-- Under referential integrity the inner joins of the handler cannot drop
an Equivalency row: joinItem yields a row whose ExternalCourse columns are
the mapped result of the left-join lookup. -/
theorem joinItem_eq_of_integrity (db : DB) (e : EquivalencyRow)
    (hint : RefIntegrity db) (he : e ∈ db.equivalencies) :
    ∃ s g, db.schools.find? (fun x => x.id == e.schoolId) = some s ∧
      db.gtCourses.find? (fun x => x.id == e.gtCourseId) = some g ∧
      joinItem db e = some ⟨s.name, g.code, g.title, g.creditHours,
        (db.externalCourses.find? (fun c => c.schoolId == e.schoolId &&
          c.code == e.externalCourseCode)).map (fun c => c.code),
        (db.externalCourses.find? (fun c => c.schoolId == e.schoolId &&
          c.code == e.externalCourseCode)).map (fun c => c.title),
        (db.externalCourses.find? (fun c => c.schoolId == e.schoolId &&
          c.code == e.externalCourseCode)).map (fun c => c.creditHours),
        e.semester⟩ := by
  obtain ⟨⟨s0, hsm, hsi⟩, ⟨g0, hgm, hgi⟩⟩ := hint.1 e he
  have hs2 : (db.schools.find? (fun x => x.id == e.schoolId)).isSome :=
    List.find?_isSome.mpr ⟨s0, hsm, by simpa using hsi⟩
  have hg2 : (db.gtCourses.find? (fun x => x.id == e.gtCourseId)).isSome :=
    List.find?_isSome.mpr ⟨g0, hgm, by simpa using hgi⟩
  obtain ⟨s, hs⟩ := Option.isSome_iff_exists.mp hs2
  obtain ⟨g, hg⟩ := Option.isSome_iff_exists.mp hg2
  refine ⟨s, g, hs, hg, ?_⟩
  unfold joinItem
  rw [hs, hg]

/-- The handler response once the GTCourse lookup has succeeded: the join
rows for that course, sorted, with total equal to their number. -/
theorem handle_ok_of_found (db : DB) (q : String) (gt : GTCourseRow)
    (hne : normalizeGT q ≠ "") (hgt : findGT db (normalizeGT q) = some gt) :
    handleEquivalents db (some q) =
      ApiResponse.ok (List.insertionSort itemLE (equivItems db gt.id))
        (List.insertionSort itemLE (equivItems db gt.id)).length := by
  unfold handleEquivalents
  simp only [Option.getD_some]
  rw [if_neg hne, hgt]

/-- C3: for every store with referential integrity and every query whose
normalized code matches a GTCourse (codes compared with spaces removed),
the endpoint returns the join of every Equivalency row of that course with
School, GTCourse and the left-joined ExternalCourse — no row more, no row
less — sorted by school name and then by external course code, with total
equal to the number of items. -/
theorem C3_query_returns_all_rows_sorted (db : DB) (q : String)
    (gt : GTCourseRow) (hint : RefIntegrity db) (hne : normalizeGT q ≠ "")
    (hgt : findGT db (normalizeGT q) = some gt) :
    ∃ items,
      handleEquivalents db (some q) = ApiResponse.ok items items.length ∧
      List.Perm items (equivItems db gt.id) ∧
      (∀ e ∈ db.equivalencies, e.gtCourseId = gt.id →
        ∃ r, joinItem db e = some r ∧ r ∈ items) ∧
      (∀ r ∈ items, ∃ e ∈ db.equivalencies,
        e.gtCourseId = gt.id ∧ joinItem db e = some r) ∧
      items.Pairwise itemLE := by
  refine ⟨List.insertionSort itemLE (equivItems db gt.id),
    handle_ok_of_found db q gt hne hgt,
    List.perm_insertionSort itemLE _, ?_, ?_,
    List.sorted_insertionSort itemLE _⟩
  · intro e he hegt
    obtain ⟨s, g, hs, hg, hj⟩ := joinItem_eq_of_integrity db e hint he
    refine ⟨_, hj, ?_⟩
    rw [List.mem_insertionSort]
    unfold equivItems
    apply List.mem_filterMap.mpr
    refine ⟨e, ?_, hj⟩
    apply List.mem_filter.mpr
    exact ⟨he, by simpa using hegt⟩
  · intro r hr
    rw [List.mem_insertionSort] at hr
    unfold equivItems at hr
    obtain ⟨e, hef, hej⟩ := List.mem_filterMap.mp hr
    obtain ⟨hee, hegt⟩ := List.mem_filter.mp hef
    exact ⟨e, hee, by simpa using hegt, hej⟩

/-- C3 witness: on the seeded store the query CS1331 matches GTCourse 1 and
returns all its Equivalency rows joined and sorted. -/
theorem C3_query_returns_all_rows_sorted_witness :
    ∃ items,
      handleEquivalents seedDB (some "CS1331") =
        ApiResponse.ok items items.length ∧
      List.Perm items (equivItems seedDB 1) ∧
      (∀ e ∈ seedDB.equivalencies, e.gtCourseId = 1 →
        ∃ r, joinItem seedDB e = some r ∧ r ∈ items) ∧
      (∀ r ∈ items, ∃ e ∈ seedDB.equivalencies,
        e.gtCourseId = 1 ∧ joinItem seedDB e = some r) ∧
      items.Pairwise itemLE :=
  C3_query_returns_all_rows_sorted seedDB "CS1331"
    ⟨1, "CS 1331", "Introduction to Object Oriented Programming", 3⟩
    (by decide) (by decide) (by decide)

/-- C10: an Equivalency row whose (schoolId, externalCourseCode) matches no
ExternalCourse row is still returned by the endpoint — the LEFT JOIN keeps
it with the three ExternalCourse columns null — and the response total is
the number of items. -/
theorem C10_left_join_keeps_dangling_rows (db : DB) (q : String)
    (gt : GTCourseRow) (e : EquivalencyRow) (hint : RefIntegrity db)
    (hne : normalizeGT q ≠ "") (hgt : findGT db (normalizeGT q) = some gt)
    (he : e ∈ db.equivalencies) (hegt : e.gtCourseId = gt.id)
    (hnoext : db.externalCourses.find? (fun c =>
      c.schoolId == e.schoolId && c.code == e.externalCourseCode) = none) :
    ∃ items,
      handleEquivalents db (some q) = ApiResponse.ok items items.length ∧
      ∃ r ∈ items, joinItem db e = some r ∧
        r.externalCourseCode = none ∧ r.externalCourseName = none ∧
        r.externalCreditHours = none ∧ r.semester = e.semester := by
  obtain ⟨s, g, hs, hg, hj⟩ := joinItem_eq_of_integrity db e hint he
  rw [hnoext] at hj
  refine ⟨List.insertionSort itemLE (equivItems db gt.id),
    handle_ok_of_found db q gt hne hgt, ?_⟩
  refine ⟨_, ?_, hj, rfl, rfl, rfl, rfl⟩
  rw [List.mem_insertionSort]
  unfold equivItems
  apply List.mem_filterMap.mpr
  refine ⟨e, ?_, hj⟩
  apply List.mem_filter.mpr
  exact ⟨he, by simpa using hegt⟩

/-- C10 witness: in the dangling store the single Equivalency row comes
back from the query with null external columns. -/
theorem C10_left_join_keeps_dangling_rows_witness :
    ∃ items,
      handleEquivalents danglingDB (some "CS 1331") =
        ApiResponse.ok items items.length ∧
      ∃ r ∈ items, joinItem danglingDB ⟨1, 1, 1, "CSC 2510", "Fall 2025"⟩ = some r ∧
        r.externalCourseCode = none ∧ r.externalCourseName = none ∧
        r.externalCreditHours = none ∧
        r.semester = (⟨1, 1, 1, "CSC 2510", "Fall 2025"⟩ : EquivalencyRow).semester :=
  C10_left_join_keeps_dangling_rows danglingDB "CS 1331"
    ⟨1, "CS 1331", "Intro to OOP", 3⟩ ⟨1, 1, 1, "CSC 2510", "Fall 2025"⟩
    (by decide) (by decide) (by decide) (by decide) (by decide) (by decide)

/-- parseCreditHours only accepts strictly positive values. -/
theorem parseCreditHours_pos {v : RawValue} {q : Rat}
    (h : parseCreditHours v = Except.ok q) : 0 < q := by
  cases v with
  | num q0 =>
    have h2 : (if 0 < q0 then Except.ok q0
        else Except.error RejectReason.INVALID_CREDIT_HOURS) = Except.ok q := h
    split_ifs at h2 with hq
    · injection h2 with h3
      rw [← h3]
      exact hq
  | str s =>
    have h2 : (match parseDecimal s with
        | some q0 => if 0 < q0 then Except.ok q0
            else Except.error RejectReason.INVALID_CREDIT_HOURS
        | none => Except.error RejectReason.INVALID_CREDIT_HOURS) =
        Except.ok q := h
    cases hp : parseDecimal s with
    | none =>
      rw [hp] at h2
      exact absurd h2 (by simp)
    | some q0 =>
      rw [hp] at h2
      have h3 : (if 0 < q0 then Except.ok q0
          else Except.error RejectReason.INVALID_CREDIT_HOURS) =
          Except.ok q := h2
      split_ifs at h3 with hq
      · injection h3 with h4
        rw [← h4]
        exact hq

/-- A record the normalizer accepts carries strictly positive credit
hours. -/
theorem normalizeRecord_ok_pos {r : RawRecord} {n : NormalizedRecord}
    (h : normalizeRecord r = Except.ok n) :
    0 < n.gtCredit ∧ 0 < n.extCredit := by
  unfold normalizeRecord at h
  cases h1 : normalizeCode r.gt with
  | error e =>
    rw [h1] at h
    exact absurd h (by simp)
  | ok c1 =>
    rw [h1] at h
    cases h2 : normalizeCode r.ext with
    | error e =>
      rw [h2] at h
      exact absurd h (by simp)
    | ok c2 =>
      rw [h2] at h
      cases h3 : parseCreditHours r.gtCredit with
      | error e =>
        rw [h3] at h
        exact absurd h (by simp)
      | ok q1 =>
        rw [h3] at h
        cases h4 : parseCreditHours r.extCredit with
        | error e =>
          rw [h4] at h
          exact absurd h (by simp)
        | ok q2 =>
          rw [h4] at h
          simp only [Except.ok.injEq] at h
          rw [← h]
          exact ⟨parseCreditHours_pos h3, parseCreditHours_pos h4⟩

/-- The persister keeps credit hours positive when fed a record with
positive credit hours. -/
theorem persist_CreditPositive (db : DB) (n : NormalizedRecord)
    (hg : 0 < n.gtCredit) (hx : 0 < n.extCredit)
    (hc : CreditPositive db) : CreditPositive (persistRecord db n) := by
  obtain ⟨g1gt, g1ext, g1eq, hs1, h1mono⟩ := getOrInsertSchool_spec db n.schoolName
  obtain ⟨g2s, g2ext, g2eq, hg2, h2mono, h2credit⟩ :=
    upsertGTCourse_spec (getOrInsertSchool db n.schoolName).1
      n.gtCode n.gtTitle n.gtCredit
  obtain ⟨g3s, g3gt, g3eq, h3school, h3credit⟩ :=
    upsertExternalCourse_spec
      (upsertGTCourse (getOrInsertSchool db n.schoolName).1
        n.gtCode n.gtTitle n.gtCredit).1
      (getOrInsertSchool db n.schoolName).2 n.extCode n.extTitle n.extCredit
  obtain ⟨g4s, g4gt, g4ext, h4rows, h4uniq⟩ :=
    upsertEquivalency_spec
      (upsertExternalCourse
        (upsertGTCourse (getOrInsertSchool db n.schoolName).1
          n.gtCode n.gtTitle n.gtCredit).1
        (getOrInsertSchool db n.schoolName).2 n.extCode n.extTitle n.extCredit).1
      (upsertGTCourse (getOrInsertSchool db n.schoolName).1
        n.gtCode n.gtTitle n.gtCredit).2
      (getOrInsertSchool db n.schoolName).2 n.extCode n.semester
  have hgts : (persistRecord db n).gtCourses =
      (upsertGTCourse (getOrInsertSchool db n.schoolName).1
        n.gtCode n.gtTitle n.gtCredit).1.gtCourses := by
    rw [show (persistRecord db n).gtCourses = _ from g4gt, g3gt]
  have hexts : (persistRecord db n).externalCourses =
      (upsertExternalCourse
        (upsertGTCourse (getOrInsertSchool db n.schoolName).1
          n.gtCode n.gtTitle n.gtCredit).1
        (getOrInsertSchool db n.schoolName).2
        n.extCode n.extTitle n.extCredit).1.externalCourses := by
    rw [show (persistRecord db n).externalCourses = _ from g4ext]
  constructor
  · intro g hgm
    rw [hgts] at hgm
    rcases h2credit g hgm with hcred | ⟨g0, hg0, heq⟩
    · rw [hcred]
      exact hg
    · rw [heq]
      apply hc.1 g0
      rw [← g1gt]
      exact hg0
  · intro c hcm
    rw [hexts] at hcm
    rcases h3credit c hcm with hcred | ⟨c0, hc0, heq⟩
    · rw [hcred]
      exact hx
    · rw [heq]
      apply hc.2 c0
      rw [← g1ext, ← g2ext]
      exact hc0

/-- Pipeline-reachable stores have strictly positive credit hours
throughout. -/
theorem pipeReachable_CreditPositive {db : DB} (h : PipeReachable db) :
    CreditPositive db := by
  induction h with
  | empty =>
    constructor <;> simp [emptyDB]
  | step db r hr ih =>
    cases hn : normalizeRecord r with
    | error e =>
      simpa [processRecord, hn] using ih
    | ok n =>
      simp only [processRecord, hn]
      obtain ⟨hg, hx⟩ := normalizeRecord_ok_pos hn
      exact persist_CreditPositive db n hg hx ih

/-- C6: credit hours of persisted GTCourse and ExternalCourse rows are
strictly positive in every pipeline-reachable store; a raw record whose
course codes are well-formed but whose credit hours fail to parse to a
strictly positive number (such as the number 0 or the string N/A) is
rejected before persistence with reason INVALID_CREDIT_HOURS, leaving the
store unchanged — it is never coerced and never appears in the store. -/
theorem C6_credit_hours_positive (db : DB) (r : RawRecord)
    (h : PipeReachable db)
    (hgtc : ∃ c1, normalizeCode r.gt = Except.ok c1)
    (hextc : ∃ c2, normalizeCode r.ext = Except.ok c2)
    (hbad : parseCreditHours r.gtCredit =
        Except.error RejectReason.INVALID_CREDIT_HOURS ∨
      ((∃ q, parseCreditHours r.gtCredit = Except.ok q) ∧
        parseCreditHours r.extCredit =
          Except.error RejectReason.INVALID_CREDIT_HOURS)) :
    processRecord db r = (db, some RejectReason.INVALID_CREDIT_HOURS) ∧
      (∀ g ∈ db.gtCourses, 0 < g.creditHours) ∧
      (∀ c ∈ db.externalCourses, 0 < c.creditHours) ∧
      parseCreditHours (RawValue.num 0) =
        Except.error RejectReason.INVALID_CREDIT_HOURS ∧
      parseCreditHours (RawValue.str "N/A") =
        Except.error RejectReason.INVALID_CREDIT_HOURS := by
  obtain ⟨c1, hc1⟩ := hgtc
  obtain ⟨c2, hc2⟩ := hextc
  have hrej : normalizeRecord r =
      Except.error RejectReason.INVALID_CREDIT_HOURS := by
    unfold normalizeRecord
    rw [hc1, hc2]
    rcases hbad with hb | ⟨⟨q, hq⟩, hb⟩
    · rw [hb]
    · rw [hq, hb]
  have hpos := pipeReachable_CreditPositive h
  refine ⟨?_, hpos.1, hpos.2, rfl, rfl⟩
  unfold processRecord
  rw [hrej]

/-- C6 witness: on the empty store, the scenario record with gtCredit 0 and
extCredit N/A is rejected with INVALID_CREDIT_HOURS and the store is left
unchanged. -/
theorem C6_credit_hours_positive_witness :
    processRecord emptyDB
        ⟨"Georgia State University", "CS1331", "Intro to OOP", RawValue.num 0,
         "CSC2510", "OOP", RawValue.str "N/A", "Fall 2025"⟩ =
      (emptyDB, some RejectReason.INVALID_CREDIT_HOURS) ∧
      (∀ g ∈ emptyDB.gtCourses, 0 < g.creditHours) ∧
      (∀ c ∈ emptyDB.externalCourses, 0 < c.creditHours) ∧
      parseCreditHours (RawValue.num 0) =
        Except.error RejectReason.INVALID_CREDIT_HOURS ∧
      parseCreditHours (RawValue.str "N/A") =
        Except.error RejectReason.INVALID_CREDIT_HOURS :=
  C6_credit_hours_positive emptyDB
    ⟨"Georgia State University", "CS1331", "Intro to OOP", RawValue.num 0,
     "CSC2510", "OOP", RawValue.str "N/A", "Fall 2025"⟩
    PipeReachable.empty ⟨"CS 1331", rfl⟩ ⟨"CSC 2510", rfl⟩
    (Or.inl rfl)

/-- Appending a grant that still sees room in its own trailing window
keeps every rolling window at or below R. -/
theorem countWin_append_le {R W : Nat} (gs : List Nat) (g0 : Nat)
    (hroom : (gs.filter (fun g => g0 < g + W)).length < R)
    (hinv : ∀ a, countWin W gs a ≤ R) :
    ∀ a, countWin W (gs ++ [g0]) a ≤ R := by
  intro a
  unfold countWin
  rw [List.filter_append, List.length_append]
  by_cases hin : (a ≤ g0 && g0 < a + W) = true
  · have hone : (List.filter (fun g => a ≤ g && g < a + W) [g0]).length = 1 := by
      simp [hin]
    have hsub : (gs.filter (fun g => a ≤ g && g < a + W)).length ≤
        (gs.filter (fun g => g0 < g + W)).length := by
      rw [← List.countP_eq_length_filter, ← List.countP_eq_length_filter]
      apply List.countP_mono_left
      intro g hg hp
      simp only [Bool.and_eq_true, decide_eq_true_eq] at hp hin ⊢
      omega
    omega
  · have hzero : (List.filter (fun g => a ≤ g && g < a + W) [g0]).length = 0 := by
      simp only [List.filter_cons, List.filter_nil]
      rw [if_neg hin]
      rfl
    have hold := hinv a
    unfold countWin at hold
    omega

/-- The grants inside the window ending at an instant no grant exceeds fit
in one rolling window, so under the invariant there are at most R. -/
theorem inWin_length_le {R W : Nat} (gs : List Nat) (t : Nat)
    (hmax : ∀ g ∈ gs, g ≤ t) (hinv : ∀ a, countWin W gs a ≤ R) :
    (gs.filter (fun g => t < g + W)).length ≤ R := by
  by_cases hw : W ≤ t
  · have hle : (gs.filter (fun g => t < g + W)).length ≤
        countWin W gs (t + 1 - W) := by
      unfold countWin
      rw [← List.countP_eq_length_filter, ← List.countP_eq_length_filter]
      apply List.countP_mono_left
      intro g hg hp
      have hg2 := hmax g hg
      simp only [decide_eq_true_eq, Bool.and_eq_true] at hp ⊢
      omega
    exact le_trans hle (hinv (t + 1 - W))
  · have hle : (gs.filter (fun g => t < g + W)).length ≤ countWin W gs 0 := by
      unfold countWin
      rw [← List.countP_eq_length_filter, ← List.countP_eq_length_filter]
      apply List.countP_mono_left
      intro g hg hp
      have hg2 := hmax g hg
      simp only [decide_eq_true_eq, Bool.and_eq_true] at hp ⊢
      omega
    exact le_trans hle (hinv 0)

/-- The grant chosen by acquire is no earlier than the request and still
sees room: strictly fewer than R earlier grants remain inside the window
that ends at it. -/
theorem nextGrant_spec {R W : Nat} (hR : 0 < R) (gs : List Nat) (t : Nat)
    (hmax : ∀ g ∈ gs, g ≤ t) (hinv : ∀ a, countWin W gs a ≤ R) :
    t ≤ nextGrant R W gs t ∧
      (gs.filter (fun g => nextGrant R W gs t < g + W)).length < R := by
  unfold nextGrant
  cases hw : gs.filter (fun g => t < g + W) with
  | nil =>
    simp only [nextGrantAux]
    refine ⟨le_refl t, ?_⟩
    rw [hw]
    simpa using hR
  | cons g0 rest =>
    simp only [nextGrantAux]
    have hg0win : t < g0 + W := by
      have hmem : g0 ∈ gs.filter (fun g => t < g + W) := by
        rw [hw]
        simp
      have hm2 := (List.mem_filter.mp hmem).2
      simpa using hm2
    by_cases hlt : rest.length + 1 < R
    · simp only [if_pos hlt]
      refine ⟨le_refl t, ?_⟩
      rw [hw]
      simpa using hlt
    · simp only [if_neg hlt]
      refine ⟨by omega, ?_⟩
      have h1 : List.countP (fun g => decide (g0 + W < g + W)) gs ≤
          List.countP (fun g =>
            decide (g0 + W < g + W) && decide (t < g + W)) gs := by
        apply List.countP_mono_left
        intro g hg hp
        simp only [decide_eq_true_eq] at hp
        simp only [Bool.and_eq_true, decide_eq_true_eq]
        omega
      have h2 : List.countP (fun g =>
          decide (g0 + W < g + W) && decide (t < g + W)) gs =
          List.countP (fun g => decide (g0 + W < g + W))
            (gs.filter (fun g => decide (t < g + W))) :=
        (List.countP_filter (fun g => decide (g0 + W < g + W))
          (fun g => decide (t < g + W)) gs).symm
      have h3 : gs.filter (fun g => decide (t < g + W)) = g0 :: rest := hw
      rw [h3] at h2
      have h5 : List.countP (fun g => decide (g0 + W < g + W)) rest ≤
          rest.length := List.countP_le_length (fun g => decide (g0 + W < g + W))
      have h4 : List.countP (fun g => decide (g0 + W < g + W)) (g0 :: rest) ≤
          rest.length := by
        rw [List.countP_cons]
        have hself : (decide (g0 + W < g0 + W)) = false :=
          decide_eq_false (by omega)
        rw [hself]
        simpa using h5
      have hwin := inWin_length_le gs t hmax hinv
      rw [hw] at hwin
      simp only [List.length_cons] at hwin
      rw [← List.countP_eq_length_filter]
      omega

/-- Every rolling window of a limiter run that starts under the invariant
stays at or below R. -/
theorem limiterRun_inv {R W : Nat} (hR : 0 < R) :
    ∀ (reqs gs : List Nat) (now : Nat),
      (∀ g ∈ gs, g ≤ now) → (∀ a, countWin W gs a ≤ R) →
      ∀ a, countWin W (limiterRun R W gs now reqs) a ≤ R
  | [], gs, now, hmax, hinv => by
    intro a
    simpa [limiterRun] using hinv a
  | t :: ts, gs, now, hmax, hinv => by
    intro a
    unfold limiterRun
    have hmax2 : ∀ g ∈ gs, g ≤ max t now := fun g hg =>
      le_trans (hmax g hg) (le_max_right t now)
    obtain ⟨hge, hroom⟩ := nextGrant_spec hR gs (max t now) hmax2 hinv
    apply limiterRun_inv hR ts
    · intro g hg
      rcases List.mem_append.mp hg with h1 | h2
      · exact le_trans (hmax2 g h1) hge
      · have hg2 : g = nextGrant R W gs (max t now) := by simpa using h2
        rw [hg2]
    · exact countWin_append_le gs _ hroom hinv

/-- One grant per request: nothing is dropped and nothing bypasses the
limiter. -/
theorem limiterRun_length (R W : Nat) :
    ∀ (reqs gs : List Nat) (now : Nat),
      (limiterRun R W gs now reqs).length = gs.length + reqs.length
  | [], gs, now => by simp [limiterRun]
  | t :: ts, gs, now => by
    unfold limiterRun
    rw [limiterRun_length R W ts]
    simp only [List.length_append, List.length_cons, List.length_nil]
    omega

/-- C8: during a crawl run every fetch attempt is issued through the rate
limiter — the trace has exactly one grant per request, with no bypass
path — and over any rolling 60-second window the number of granted fetch
attempts never exceeds the configured limit R. -/
theorem C8_rate_limit_rolling_window (R : Nat) (hR : 0 < R)
    (reqs : List Nat) :
    (limiterTrace R 60 reqs).length = reqs.length ∧
      ∀ a, countWin 60 (limiterTrace R 60 reqs) a ≤ R := by
  constructor
  · unfold limiterTrace
    rw [limiterRun_length]
    simp
  · intro a
    unfold limiterTrace
    apply limiterRun_inv hR reqs [] 0
    · intro g hg
      exact absurd hg (List.not_mem_nil g)
    · intro a2
      simp [countWin]

/-- C8 witness: with the default limit of 8 requests per minute, a burst of
twelve immediate requests is spread so that the window starting at 0 holds
at most 8 grants. -/
theorem C8_rate_limit_rolling_window_witness :
    (limiterTrace 8 60 [0, 0, 0, 0, 0, 0, 0, 0, 0, 0, 0, 0]).length = 12 ∧
      countWin 60 (limiterTrace 8 60 [0, 0, 0, 0, 0, 0, 0, 0, 0, 0, 0, 0]) 0 ≤ 8 :=
  ⟨(C8_rate_limit_rolling_window 8 (by decide)
      [0, 0, 0, 0, 0, 0, 0, 0, 0, 0, 0, 0]).1,
   (C8_rate_limit_rolling_window 8 (by decide)
      [0, 0, 0, 0, 0, 0, 0, 0, 0, 0, 0, 0]).2 0⟩

end TransferMap



